import Mathlib

/-!
FCO metrics API and the deployment test script.

A shallow embedding of `src/V05000/api/fco-metrics-api.js` (lines 24-34 for
`CONFIG`, 37-52 for the ABIs, 67-133 for the cache and `getMetrics`, 136-171
for `getPrices`, 173-259 for the routes) and of `testEndpoint` from
`src/test_contract_deployment_execution.js`, followed by the properties
established about them.

Modelling conventions.

* The module-level variables `metricsCache` and `cacheTimestamp` are the two
  fields of `State`; every operation passes the state explicitly.
* `Date.now()` (line 73) is the argument `now`, an integer number of
  milliseconds.  `new Date()` (line 124) is a second clock reading, the
  argument `stamp`; the source stores its `toISOString()` rendering in the
  snapshot, the model keeps the instant itself.
* A contract read is a promise that settles either fulfilled with a value or
  rejected with an error: `Except JsError α`.  The nine reads of one refresh
  are the fields of `Ledger`.
* ethers v6 decodes every `uintN` return value to a bigint below `2 ^ N`;
  bigints are `Nat`, the ABI widths are the predicate `Values.wellTyped`.
* `console.log` / `console.error` output is not modelled.
-/

namespace FcoMetrics

/-! ## Configuration (lines 25-34) -/

/-- The part of `CONFIG` that `getMetrics` reads. -/
structure Config where
  RPC_URL : String
  AUTHORITY_ADDRESS : String
  FCO_ADDRESS : String
  deriving DecidableEq, Repr

/-- The value of `CONFIG` with every environment variable unset (the `||`
defaults). -/
def CONFIG : Config :=
  { RPC_URL := "http://paratime.fanati.co:8545"
    AUTHORITY_ADDRESS := "0xed4E6CA376FaA5c1EB37fF8Fc053875A6F327EB2"
    FCO_ADDRESS := "0xd6F8Ff0036D8B2088107902102f9415330868109" }

/-! ## Errors and ledger reads -/

/-- A JavaScript `Error` as thrown by a rejected contract read: ethers v6
errors carry a `code` and a `message`. -/
structure JsError where
  code : String
  message : String
  deriving DecidableEq, Repr

/-- The nine contract reads of a refresh, in the order of the array passed to
`Promise.all` (lines 90-98). -/
inductive ReadId where
  | name | symbol | decimals | totalSupply | epochDuration
  | lockDuration | currentEpoch | ethReserve | chainId
  deriving DecidableEq, Repr

/-- The calls issued by one refresh: one per element of the array, all started
when the array is built, before anything is awaited. -/
def allReads : List ReadId :=
  [.name, .symbol, .decimals, .totalSupply, .epochDuration,
   .lockDuration, .currentEpoch, .ethReserve, .chainId]

/-- How the ledger answers the nine reads of one refresh. -/
structure Ledger where
  name : Except JsError String
  symbol : Except JsError String
  decimals : Except JsError Nat
  totalSupply : Except JsError Nat
  epochDuration : Except JsError Nat
  lockDuration : Except JsError Nat
  currentEpoch : Except JsError Nat
  ethReserve : Except JsError Nat
  chainId : Except JsError Nat

/-- The array destructured from a fulfilled `Promise.all` (lines 79-89). -/
structure Values where
  name : String
  symbol : String
  decimals : Nat
  totalSupply : Nat
  epochDuration : Nat
  lockDuration : Nat
  currentEpoch : Nat
  ethReserve : Nat
  chainId : Nat
  deriving DecidableEq, Repr

/-- The widths declared in `FCO_ABI` and `AUTHORITY_ABI` (lines 37-52):
`decimals` is a `uint8`, `ethReserve` a `uint256`, the others `uint40`. -/
def Values.wellTyped (v : Values) : Prop :=
  v.decimals < 2 ^ 8 ∧ v.totalSupply < 2 ^ 40 ∧ v.epochDuration < 2 ^ 40 ∧
  v.lockDuration < 2 ^ 40 ∧ v.currentEpoch < 2 ^ 40 ∧ v.ethReserve < 2 ^ 256 ∧
  v.chainId < 2 ^ 40

instance (v : Values) : Decidable v.wellTyped := by
  unfold Values.wellTyped; infer_instance

/-- True when at least one of the nine reads rejects. -/
def Ledger.anyRejected (l : Ledger) : Bool :=
  !(l.name.toBool && l.symbol.toBool && l.decimals.toBool && l.totalSupply.toBool &&
    l.epochDuration.toBool && l.lockDuration.toBool && l.currentEpoch.toBool &&
    l.ethReserve.toBool && l.chainId.toBool)

/-- The reasons of the rejected reads, in array order. -/
def Ledger.rejections (l : Ledger) : List JsError :=
  let reason {α : Type} (r : Except JsError α) : List JsError :=
    match r with
    | .ok _ => []
    | .error e => [e]
  reason l.name ++ reason l.symbol ++ reason l.decimals ++ reason l.totalSupply ++
  reason l.epochDuration ++ reason l.lockDuration ++ reason l.currentEpoch ++
  reason l.ethReserve ++ reason l.chainId

/-- The `await Promise.all([...])` over the nine reads (lines 89-99): fulfilled with
all nine values when every read fulfils, rejected as soon as one read rejects.
`Promise.all` rejects with the reason of the read that rejects first; the model
lets the reads settle in array order, so that reason is the first rejection of
the array. -/
def promiseAll (l : Ledger) : Except JsError Values := do
  let name ← l.name
  let symbol ← l.symbol
  let decimals ← l.decimals
  let totalSupply ← l.totalSupply
  let epochDuration ← l.epochDuration
  let lockDuration ← l.lockDuration
  let currentEpoch ← l.currentEpoch
  let ethReserve ← l.ethReserve
  let chainId ← l.chainId
  return { name, symbol, decimals, totalSupply, epochDuration, lockDuration,
           currentEpoch, ethReserve, chainId }

/-! ## Conversions (lines 105-122) -/

/-- The conversion `Number(b)` of a non-negative bigint `b`: the nearest IEEE-754 double,
ties to even.  Below `2 ^ 53` every integer is a double, above it the low bits
are rounded away.  (Doubles overflow to `Infinity` from about `2 ^ 1024`, far
beyond any ABI width used here; that range is not modelled.) -/
def Number (b : Nat) : Nat :=
  if b < 2 ^ 53 then b
  else
    let dropped := Nat.log2 b - 52
    let q := b / 2 ^ dropped
    let r := b % 2 ^ dropped
    let half := 2 ^ (dropped - 1)
    if r > half ∨ (r = half ∧ q % 2 = 1) then (q + 1) * 2 ^ dropped
    else q * 2 ^ dropped

/-- The constant `Number.MAX_SAFE_INTEGER`, `2 ^ 53 - 1`. -/
def MAX_SAFE_INTEGER : Nat := 2 ^ 53 - 1

/-- The method `b.toString()` of a non-negative bigint: its decimal digits. -/
def bigintToString (b : Nat) : String := Nat.repr b

/-! ## Snapshot (lines 101-125) -/

structure Token where
  name : String
  symbol : String
  decimals : Nat
  address : String
  deriving DecidableEq, Repr

structure Supply where
  total : Nat
  max : Nat
  circulation : Nat
  burned : Nat
  deriving DecidableEq, Repr

structure Epoch where
  current : Nat
  duration : Nat
  lockDuration : Nat
  deriving DecidableEq, Repr

structure Chain where
  id : Nat
  rpc : String
  ethReserve : String
  deriving DecidableEq, Repr

/-- The object assigned to `metricsCache`.  `timestamp` is the instant read by
`new Date()`, in milliseconds. -/
structure MetricsSnapshot where
  token : Token
  supply : Supply
  epoch : Epoch
  chain : Chain
  timestamp : Int
  deriving DecidableEq, Repr

/-- The object literal of lines 101-125. -/
def assemble (cfg : Config) (v : Values) (stamp : Int) : MetricsSnapshot :=
  { token :=
      { name := v.name
        symbol := v.symbol
        decimals := Number v.decimals
        address := cfg.FCO_ADDRESS }
    supply :=
      { total := Number v.totalSupply
        max := 20000000000
        circulation := Number v.totalSupply
        burned := 0 }
    epoch :=
      { current := Number v.currentEpoch
        duration := Number v.epochDuration
        lockDuration := Number v.lockDuration }
    chain :=
      { id := Number v.chainId
        rpc := cfg.RPC_URL
        ethReserve := bigintToString v.ethReserve }
    timestamp := stamp }

/-! ## The cache and `getMetrics` (lines 67-133) -/

/-- The module-level cache variables (lines 68-69). -/
structure State where
  metricsCache : Option MetricsSnapshot
  cacheTimestamp : Int
  deriving DecidableEq, Repr

/-- The state of a freshly started process:
`metricsCache = null`, `cacheTimestamp = 0`. -/
def State.initial : State := { metricsCache := none, cacheTimestamp := 0 }

/-- Line 70. -/
def CACHE_TTL : Int := 60000

/-- Where a call stands when it first yields: it has returned the cached
snapshot (lines 74-76), or it has issued the nine reads and is suspended at
the `await` of line 89, holding the `now` it read on entry. -/
inductive Entered where
  | hit (cached : MetricsSnapshot)
  | awaiting (now : Int)
  deriving DecidableEq, Repr

/-- Lines 73-76 and the start of the reads: the synchronous first segment of
`getMetrics`.  A non-null `metricsCache` is an object, hence truthy. -/
def getMetricsEnter (st : State) (now : Int) : Entered × List ReadId :=
  match st.metricsCache with
  | some cached =>
      if now - st.cacheTimestamp < CACHE_TTL then (.hit cached, [])
      else (.awaiting now, allReads)
  | none => (.awaiting now, allReads)

/-- Lines 101-132: the segment that runs when the `Promise.all` settles, in
the state `st` of that moment.  On fulfilment both cache variables are
assigned and the new snapshot is returned; on rejection the `catch` rethrows
the error it caught and assigns nothing. -/
def getMetricsResume (cfg : Config) (st : State) (now : Int)
    (settled : Except JsError Values) (stamp : Int) :
    Except JsError MetricsSnapshot × State :=
  match settled with
  | .ok v =>
      let snapshot := assemble cfg v stamp
      (.ok snapshot, { metricsCache := some snapshot, cacheTimestamp := now })
  | .error error => (.error error, st)

/-- What one call of `getMetrics` does. -/
structure Outcome where
  result : Except JsError MetricsSnapshot
  state : State
  reads : List ReadId

/-- One call of `getMetrics` run to completion with no other call in between:
entry at clock value `now`, the ledger answering as `ledger`, the snapshot
stamped at `stamp`. -/
def getMetrics (cfg : Config) (st : State) (now : Int) (ledger : Ledger)
    (stamp : Int) : Outcome :=
  match getMetricsEnter st now with
  | (.hit cached, reads) => { result := .ok cached, state := st, reads := reads }
  | (.awaiting entered, reads) =>
      let (result, st') := getMetricsResume cfg st entered (promiseAll ledger) stamp
      { result := result, state := st', reads := reads }

/-- The inputs of one call: the clock on entry, the ledger, the clock at
assembly. -/
structure Call where
  now : Int
  ledger : Ledger
  stamp : Int

/-- A sequence of calls, each completing before the next starts. -/
def runCalls (cfg : Config) : State → List Call → List Outcome
  | _, [] => []
  | st, c :: cs =>
      let o := getMetrics cfg st c.now c.ledger c.stamp
      o :: runCalls cfg o.state cs

/-- The state after a sequence of sequential calls. -/
def finalState (cfg : Config) : State → List Call → State
  | st, [] => st
  | st, c :: cs => finalState cfg (getMetrics cfg st c.now c.ledger c.stamp).state cs

/-- Overlapping calls: every call runs its first segment in the state `st`
before any `Promise.all` settles, then the calls resume one after the other in
list order.  A call that hit the cache has already returned. -/
def resumeAll (cfg : Config) :
    State → List (Entered × Call) → List (Except JsError MetricsSnapshot) × State
  | st, [] => ([], st)
  | st, (.hit cached, _) :: rest =>
      let (rs, st') := resumeAll cfg st rest
      (.ok cached :: rs, st')
  | st, (.awaiting entered, c) :: rest =>
      let (r, st1) := getMetricsResume cfg st entered (promiseAll c.ledger) c.stamp
      let (rs, st') := resumeAll cfg st1 rest
      (r :: rs, st')

/-- The overlapping run of `calls` from `st`: results per caller, the final
state, and every read issued. -/
def overlapCalls (cfg : Config) (st : State) (calls : List Call) :
    List (Except JsError MetricsSnapshot) × State × List ReadId :=
  let entered := calls.map fun c => ((getMetricsEnter st c.now).1, c)
  let reads := (calls.map fun c => (getMetricsEnter st c.now).2).flatten
  let (rs, st') := resumeAll cfg st entered
  (rs, st', reads)

/-! ## Concrete inputs used by the witnesses and counterexamples -/

/-- A ledger on which every read fulfils, returning the fields of `v`. -/
def Ledger.healthy (v : Values) : Ledger :=
  { name := .ok v.name
    symbol := .ok v.symbol
    decimals := .ok v.decimals
    totalSupply := .ok v.totalSupply
    epochDuration := .ok v.epochDuration
    lockDuration := .ok v.lockDuration
    currentEpoch := .ok v.currentEpoch
    ethReserve := .ok v.ethReserve
    chainId := .ok v.chainId }

/-- Well-typed read results with a total supply of one million. -/
def exValues : Values :=
  { name := "Fanatico"
    symbol := "FCO"
    decimals := 18
    totalSupply := 1000000
    epochDuration := 86400
    lockDuration := 604800
    currentEpoch := 7
    ethReserve := 5000000000000000000
    chainId := 1234 }

/-- A transport error as the RPC client reports it. -/
def exError : JsError := { code := "NETWORK_ERROR", message := "could not detect network" }

/-- A ledger whose `totalSupply()` read rejects; the other eight fulfil. -/
def exDown : Ledger := { Ledger.healthy exValues with totalSupply := .error exError }

/-- The snapshot of `exValues` captured at instant 1000. -/
def exSnapshot : MetricsSnapshot := assemble CONFIG exValues 1000

/-- A state caching `exSnapshot` since clock value 1000. -/
def exCached : State := { metricsCache := some exSnapshot, cacheTimestamp := 1000 }

/-- Every read issued over a sequence of calls, in order. -/
def readsIssued (os : List Outcome) : List ReadId :=
  (os.map Outcome.reads).flatten

/-- The integer a string of decimal digits denotes (what `BigInt(s)` gives back
for the output of `toString()`). -/
def parseDecimal (s : String) : Nat :=
  s.data.foldl (fun acc c => acc * 10 + (c.toNat - 48)) 0

/-- Well-typed read results whose total supply, a `uint40`, exceeds the
configured maximum by one. -/
def exOverMax : Values := { exValues with totalSupply := 20000000001 }

/-- Well-typed read results whose reserve, a `uint256`, is `2 ^ 53`, one more
than `Number.MAX_SAFE_INTEGER`. -/
def exBigReserve : Values := { exValues with ethReserve := 9007199254740992 }

/-- Two callers arriving past the TTL of `exCached`, both answered by a healthy
ledger. -/
def exOverlap : List Call :=
  [ { now := 61000, ledger := Ledger.healthy exValues, stamp := 61500 },
    { now := 61001, ledger := Ledger.healthy exValues, stamp := 61600 } ]

/-- A first call at clock value 0 answered by a healthy ledger. -/
def exFirst : Call := { now := 0, ledger := Ledger.healthy exValues, stamp := 3 }

/-- Two later calls inside the TTL window of `exFirst`, the ledger being down
or reporting another supply by then. -/
def exLater : List Call :=
  [ { now := 30000, ledger := exDown, stamp := 30001 },
    { now := 59999, ledger := Ledger.healthy exOverMax, stamp := 60002 } ]

/-! ## JavaScript values (price payloads and response bodies)

The price sources answer with arbitrary JSON, and `getPrices` (lines 136-171)
reads it with plain property accesses.  The model keeps what those accesses
depend on: the shape of a value, its truthiness, and whether a property read
throws.
-/

/-- A JavaScript number.  A finite double is kept as the rational it denotes
(negative zero is the rational 0); no arithmetic is ever done on it. -/
inductive JsNumber where
  | nan
  | infinity (negative : Bool)
  | finite (value : ℚ)
  deriving DecidableEq

/-- The number literal `0`. -/
def JsNumber.zero : JsNumber := .finite 0

/-- A non-negative integer as a JavaScript number. -/
def JsNumber.ofNat (n : Nat) : JsNumber := .finite n

/-- A JavaScript value as `JSON.parse` can produce it, plus `undefined` (the
result of reading an absent property).  The `props` of an object are its own
properties, one entry per key. -/
inductive JsValue where
  | undefined
  | null
  | bool (b : Bool)
  | num (n : JsNumber)
  | str (s : String)
  | arr (items : List JsValue)
  | obj (props : List (String × JsValue))

/-- Truthiness (`ToBoolean`): `undefined`, `null`, `false`, `0`, `NaN` and the
empty string are falsy, everything else is truthy. -/
def JsValue.truthy : JsValue → Bool
  | .undefined => false
  | .null => false
  | .bool b => b
  | .num .nan => false
  | .num (.infinity _) => true
  | .num (.finite value) => decide (value ≠ 0)
  | .str s => decide (s ≠ "")
  | .arr _ => true
  | .obj _ => true

/-- The expression `a || b` once both operands are known (here `b` is always
the literal `0`, whose evaluation has no effect). -/
def JsValue.or (a b : JsValue) : JsValue :=
  if a.truthy then a else b

/-- The `TypeError` thrown by a property read on `undefined` or `null`.
Built-in errors have no `code`; the model puts the class name there. -/
def typeError (message : String) : JsError :=
  { code := "TypeError", message := message }

/-- The property read `v.name`, for the names the source reads (`data`,
`ticker`, `latest`, `fanatico`, `usd`), none of which is defined on a built-in
prototype: it throws on `undefined` and `null`, finds an own property of an
object, and is `undefined` on every other value. -/
def JsValue.getProp (v : JsValue) (name : String) : Except JsError JsValue :=
  match v with
  | .undefined => .error (typeError ("Cannot read properties of undefined (reading " ++ name ++ ")"))
  | .null => .error (typeError ("Cannot read properties of null (reading " ++ name ++ ")"))
  | .obj props => .ok ((props.lookup name).getD .undefined)
  | _ => .ok .undefined

/-- The element read `v[i]`: the `i`-th item of an array, the `i`-th character
of a string as a one-character string, the own property named by the digits
of `i` on an object; it throws on `undefined` and `null`. -/
def JsValue.getIndex (v : JsValue) (i : Nat) : Except JsError JsValue :=
  match v with
  | .undefined => .error (typeError "Cannot read properties of undefined")
  | .null => .error (typeError "Cannot read properties of null")
  | .arr items => .ok (items.getD i .undefined)
  | .str s =>
      match s.data.get? i with
      | some c => .ok (.str (String.singleton c))
      | none => .ok .undefined
  | .obj props => .ok ((props.lookup (toString i)).getD .undefined)
  | _ => .ok .undefined

/-! ## Promises and asynchronous functions -/

/-- What a promise does in the end: it never settles, it rejects, or it
fulfils. -/
inductive Settles (α : Type) where
  | pending
  | rejected (reason : JsError)
  | fulfilled (value : α)

/-- The two external price sources, `CONFIG.LBANK_API` and
`CONFIG.COINGECKO_API` (lines 32-33). -/
inductive Source where
  | lbank
  | coingecko
  deriving DecidableEq, Repr

/-- What can be observed of the outbound traffic of a `getPrices` call: a
request is sent to a source, the `fetch` promise of a source settles. -/
inductive Event where
  | request (src : Source)
  | settled (src : Source)
  deriving DecidableEq, Repr

/-- The `Response` of a `fetch`: its `ok` flag (status in 200-299) and what
`response.json()` settles to. -/
structure Response where
  ok : Bool
  body : Settles JsValue

/-- A run of a piece of an `async` function: how it ends and the events it
caused, in order. -/
structure Async (α : Type) where
  outcome : Settles α
  events : List Event

/-- A piece that completes normally with `a`. -/
def Async.pure {α : Type} (a : α) : Async α :=
  { outcome := .fulfilled a, events := [] }

/-- Sequencing: the continuation runs only if the first piece completes; a
rejection (a throw) or a promise that never settles ends the run there. -/
def Async.bind {α β : Type} (x : Async α) (f : α → Async β) : Async β :=
  match x.outcome with
  | .fulfilled a => { outcome := (f a).outcome, events := x.events ++ (f a).events }
  | .rejected e => { outcome := .rejected e, events := x.events }
  | .pending => { outcome := .pending, events := x.events }

instance : Monad Async where
  pure := Async.pure
  bind := Async.bind

/-- The statement `try body catch (e) handler`: the handler runs when the
body throws or an awaited promise rejects. -/
def Async.tryCatch {α : Type} (body : Async α) (handler : JsError → Async α) : Async α :=
  match body.outcome with
  | .rejected e =>
      { outcome := (handler e).outcome, events := body.events ++ (handler e).events }
  | _ => body

/-- A synchronous expression that may throw. -/
def Async.throwing {α : Type} (r : Except JsError α) : Async α :=
  match r with
  | .ok a => Async.pure a
  | .error e => { outcome := .rejected e, events := [] }

/-- The expression `await fetch(url)` for the source `src`, the network
answering as `answer`: the request goes out, and the promise settles unless
the source never answers. -/
def fetch (src : Source) (answer : Settles Response) : Async Response :=
  match answer with
  | .pending => { outcome := .pending, events := [.request src] }
  | settled => { outcome := settled, events := [.request src, .settled src] }

/-- The expression `await response.json()`. -/
def Response.json (response : Response) : Async JsValue :=
  { outcome := response.body, events := [] }

/-! ## The price aggregator `getPrices` (lines 136-171) -/

/-- The object `prices` (lines 137-142); `timestamp` is the instant read by
`new Date()`. -/
structure PriceSnapshot where
  usd_fco_l1 : JsValue
  usd_fco_cex_lbank : JsValue
  usdt_fco_dex_uniswap : JsValue
  timestamp : Int

/-- The condition `data.data && data.data[0]` of line 149: the second operand
is evaluated only when the first is truthy. -/
def lbankTest (data : JsValue) : Except JsError JsValue := do
  let dataData ← data.getProp "data"
  if dataData.truthy then dataData.getIndex 0 else pure dataData

/-- The expression `data.data[0].ticker.latest` of line 150. -/
def lbankLatest (data : JsValue) : Except JsError JsValue := do
  let dataData ← data.getProp "data"
  let first ← dataData.getIndex 0
  let ticker ← first.getProp "ticker"
  ticker.getProp "latest"

/-- The expression `data.fanatico.usd` of line 163. -/
def coingeckoUsd (data : JsValue) : Except JsError JsValue := do
  let fanatico ← data.getProp "fanatico"
  fanatico.getProp "usd"

/-- The body of the first `try` (lines 146-152).  Its only effect on `prices`
is the assignment of line 150, the last statement it can reach: the result is
the value assigned to `prices.usd_fco_cex_lbank`, or `none` when the
assignment is not reached.  The builtin `parseFloat` is a parameter. -/
def tryLBank (parseFloat : JsValue → Except JsError JsNumber)
    (answer : Settles Response) : Async (Option JsValue) := do
  let lbankResponse ← fetch .lbank answer
  if lbankResponse.ok then
    let data ← lbankResponse.json
    if (← Async.throwing (lbankTest data)).truthy then
      let latest ← Async.throwing (lbankLatest data)
      let parsed ← Async.throwing (parseFloat latest)
      return some ((JsValue.num parsed).or (.num .zero))
    else return none
  else return none

/-- The body of the second `try` (lines 159-165): the value assigned to
`prices.usd_fco_l1` at line 163, or `none` when the assignment is not
reached. -/
def tryCoinGecko (answer : Settles Response) : Async (Option JsValue) := do
  let cgResponse ← fetch .coingecko answer
  if cgResponse.ok then
    let data ← cgResponse.json
    if (← Async.throwing (data.getProp "fanatico")).truthy then
      let usd ← Async.throwing (coingeckoUsd data)
      return some (usd.or (.num .zero))
    else return none
  else return none

/-- The function `getPrices`: the network answers the two requests as `lbank`
and `coingecko`, and `new Date()` reads `stamp`.  Each `catch` only logs
`e.message`. -/
def getPrices (parseFloat : JsValue → Except JsError JsNumber)
    (lbank coingecko : Settles Response) (stamp : Int) : Async PriceSnapshot := do
  let prices : PriceSnapshot :=
    { usd_fco_l1 := .num .zero
      usd_fco_cex_lbank := .num .zero
      usdt_fco_dex_uniswap := .num .zero
      timestamp := stamp }
  let assigned ← (tryLBank parseFloat lbank).tryCatch fun _e => pure none
  let prices :=
    match assigned with
    | some value => { prices with usd_fco_cex_lbank := value }
    | none => prices
  let assigned ← (tryCoinGecko coingecko).tryCatch fun _e => pure none
  let prices :=
    match assigned with
    | some value => { prices with usd_fco_l1 := value }
    | none => prices
  return prices

/-- The attempt on a source comes to an end: the `fetch` settles and, when the
response is `ok`, so does the reading of its body. -/
def attemptSettles (answer : Settles Response) : Bool :=
  match answer with
  | .pending => false
  | .rejected _ => true
  | .fulfilled response =>
      if response.ok then
        match response.body with
        | .pending => false
        | _ => true
      else true

/-- The value the LBank attempt leaves in `usd_fco_cex_lbank` once it has
come to an end: the parsed `latest` of an `ok` response when it is a non-zero
number, `0` in every other case. -/
def lbankField (parseFloat : JsValue → Except JsError JsNumber)
    (answer : Settles Response) : JsValue :=
  match answer with
  | .fulfilled { ok := true, body := .fulfilled data } =>
      match lbankLatest data >>= parseFloat with
      | .ok parsed => (JsValue.num parsed).or (.num .zero)
      | .error _ => .num .zero
  | _ => .num .zero

/-- The value the CoinGecko attempt leaves in `usd_fco_l1` once it has come to
an end: the `fanatico.usd` of an `ok` response when it is truthy, `0` in every
other case. -/
def coingeckoField (answer : Settles Response) : JsValue :=
  match answer with
  | .fulfilled { ok := true, body := .fulfilled data } =>
      match coingeckoUsd data with
      | .ok usd => usd.or (.num .zero)
      | .error _ => .num .zero
  | _ => .num .zero

/-- The events of a whole `getPrices` call, as the two answers determine
them. -/
def priceEvents (lbank coingecko : Settles Response) : List Event :=
  (fetch .lbank lbank).events ++
    (if attemptSettles lbank then (fetch .coingecko coingecko).events else [])

/-- The ways an attempt on a source can fail before its payload is looked at:
the `fetch` rejects, the response is not `ok`, or the body does not parse. -/
def attemptFails (answer : Settles Response) : Prop :=
  (∃ e, answer = .rejected e) ∨
  (∃ body, answer = .fulfilled { ok := false, body := body }) ∨
  (∃ e, answer = .fulfilled { ok := true, body := .rejected e })

/-- A number is a price when it is not `NaN`. -/
def JsValue.isNumber : JsValue → Prop
  | .num n => n ≠ .nan
  | _ => False

/-! ## The API routes (lines 173-259) -/

/-- The argument of `res.json(...)`: a metrics snapshot, a price snapshot, or
an object literal with the listed keys. -/
inductive Body where
  | metrics (snapshot : MetricsSnapshot)
  | prices (snapshot : PriceSnapshot)
  | object (props : List (String × JsValue))

/-- An HTTP response: `res.json(body)` answers with status 200 unless
`res.status(...)` was called first. -/
structure HttpResponse where
  status : Nat
  body : Body

/-- The `catch` of every route: `res.status(500).json({ error: error.message })`. -/
def errorEnvelope (error : JsError) : HttpResponse :=
  { status := 500, body := .object [("error", .str error.message)] }

/-- The route `GET /api/info/prices` (lines 181-188). -/
def pricesRoute (parseFloat : JsValue → Except JsError JsNumber)
    (lbank coingecko : Settles Response) (stamp : Int) : Async HttpResponse :=
  Async.tryCatch
    (do
      let prices ← getPrices parseFloat lbank coingecko stamp
      return { status := 200, body := .prices prices })
    (fun error => pure (errorEnvelope error))

/-- The seven routes that call `getMetrics` (lines 191-259). -/
inductive MetricsRoute where
  | metrics
  | totalSupply
  | maxSupply
  | totalCirculation
  | totalMint
  | totalBurn
  | contract
  deriving DecidableEq, Repr

/-- The path each route is mounted on. -/
def MetricsRoute.path : MetricsRoute → String
  | .metrics => "/api/info/stat/metrics"
  | .totalSupply => "/api/info/stat/metrics/total-supply"
  | .maxSupply => "/api/info/stat/metrics/max-supply"
  | .totalCirculation => "/api/info/stat/metrics/total-circulation"
  | .totalMint => "/api/info/stat/metrics/total-mint"
  | .totalBurn => "/api/info/stat/metrics/total-burn"
  | .contract => "/api/info/contract"

/-- What each route passes to `res.json` once `getMetrics` has returned
`metrics`. -/
def MetricsRoute.respond (cfg : Config) (metrics : MetricsSnapshot) : MetricsRoute → Body
  | .metrics => .metrics metrics
  | .totalSupply => .object [("totalSupply", .num (.ofNat metrics.supply.total))]
  | .maxSupply => .object [("maxSupply", .num (.ofNat metrics.supply.max))]
  | .totalCirculation => .object [("circulation", .num (.ofNat metrics.supply.circulation))]
  | .totalMint => .object [("totalMint", .num (.ofNat metrics.supply.total))]
  | .totalBurn => .object [("totalBurn", .num (.ofNat metrics.supply.burned))]
  | .contract =>
      .object [("fco", .str cfg.FCO_ADDRESS), ("authority", .str cfg.AUTHORITY_ADDRESS),
               ("chainId", .num (.ofNat metrics.chain.id)), ("rpc", .str cfg.RPC_URL)]

/-- What serving one request on a metrics route does. -/
structure Served where
  response : HttpResponse
  state : State
  reads : List ReadId

/-- A handler of lines 191-259: `try` to `await getMetrics()` and answer with
the projection, `catch` to answer 500 with the error envelope. -/
def serveMetrics (cfg : Config) (route : MetricsRoute) (st : State) (now : Int)
    (ledger : Ledger) (stamp : Int) : Served :=
  let o := getMetrics cfg st now ledger stamp
  match o.result with
  | .ok metrics =>
      { response := { status := 200, body := route.respond cfg metrics }
        state := o.state, reads := o.reads }
  | .error error => { response := errorEnvelope error, state := o.state, reads := o.reads }

/-- The keys of an object body, in order. -/
def Body.keys : Body → List String
  | .object props => props.map Prod.fst
  | _ => []

/-! ## Concrete inputs for the price aggregator and the routes -/

/-- A stand-in for the builtin `parseFloat`, which is not part of the
repository, used to evaluate the examples: it agrees with the builtin on
`undefined`, `null`, booleans, numbers and strings of decimal digits, and on
the text `abc`. -/
def exParseFloat : JsValue → Except JsError JsNumber
  | .num n => .ok n
  | .str s =>
      if s.data.all Char.isDigit ∧ s.data ≠ [] then .ok (.ofNat (parseDecimal s)) else .ok .nan
  | _ => .ok .nan

/-- A payload of the shape the LBank ticker API answers with, the latest price
being the string `"2"`. -/
def exLBankBody : JsValue :=
  .obj [("result", .bool true),
        ("data", .arr [.obj [("symbol", .str "fco_usdt"),
                             ("ticker", .obj [("high", .str "3"), ("latest", .str "2")])]])]

/-- An LBank payload whose latest price is the text `"abc"`. -/
def exLBankText : JsValue :=
  .obj [("data", .arr [.obj [("ticker", .obj [("latest", .str "abc")])]])]

/-- A payload of the shape the CoinGecko simple-price API answers with, the
price being the number 3. -/
def exCoinGeckoBody : JsValue := .obj [("fanatico", .obj [("usd", .num (.finite 3))])]

/-- A CoinGecko payload whose price is the text `"abc"` instead of a number. -/
def exCoinGeckoText : JsValue := .obj [("fanatico", .obj [("usd", .str "abc")])]

/-- LBank answers 200 with `exLBankBody`. -/
def exLBankUp : Settles Response := .fulfilled { ok := true, body := .fulfilled exLBankBody }

/-- CoinGecko answers 200 with `exCoinGeckoBody`. -/
def exCoinGeckoUp : Settles Response :=
  .fulfilled { ok := true, body := .fulfilled exCoinGeckoBody }

/-- A source that cannot be reached: the `fetch` rejects. -/
def exSourceDown : Settles Response := .rejected exError

/-- The snapshot of a call at instant 7 in which no source gave a price. -/
def exNoPrices : PriceSnapshot :=
  { usd_fco_l1 := .num .zero, usd_fco_cex_lbank := .num .zero,
    usdt_fco_dex_uniswap := .num .zero, timestamp := 7 }

/-- The payload of an `ok` response lacks the field read by `path`: the read
gives `undefined` or throws on the way. -/
def payloadMissing (path : JsValue → Except JsError JsValue) (answer : Settles Response) : Prop :=
  ∃ data, answer = .fulfilled { ok := true, body := .fulfilled data } ∧
    (path data = .ok .undefined ∨ ∃ e, path data = .error e)

/-! ## The liveness route and runs of the cache -/

/-- What serving one request does to the service: the response, the cache
state afterwards, the ledger reads issued and the price-source events. -/
structure Handled where
  response : HttpResponse
  state : State
  reads : List ReadId
  events : List Event

/-- The route `GET /health` (lines 176-178): a synchronous handler whose only
statement is `res.json(...)` with the literal `status` and the rendering of
`new Date()`.  The builtin `toISOString` is a parameter. -/
def healthRoute (toISOString : Int → String) (st : State) (stamp : Int) : Handled :=
  { response :=
      { status := 200
        body := .object [("status", .str "ok"), ("timestamp", .str (toISOString stamp))] }
    state := st
    reads := []
    events := [] }

/-- A call performed a refresh that succeeded: it issued the nine reads and
returned a snapshot. -/
def Outcome.refreshSucceeded (o : Outcome) : Prop :=
  o.reads = allReads ∧ ∃ m, o.result = .ok m

/-! ## The deployment test script

A shallow embedding of `testEndpoint` from
`src/test_contract_deployment_execution.js` (lines 45-476).  The function
runs twelve tests against one endpoint; each test is a `try`/`catch` that
updates the counters of `endpointResult.summary` and appends one record to
`endpointResult.tests`.  Every awaited call is answered by a field of
`Answers`; values read back from the chain are bigints (`Nat`), whose
`toString()` cannot throw.  Console output is not modelled.
-/

namespace DeploymentTest

/-- An entry of `ENDPOINTS` (lines 11-24). -/
structure Endpoint where
  name : String
  url : String
  chainId : Nat
  network : String

/-- A test object such as `connectivityTest`: created with a `name` and the
status `pending`, then given a final status and an `error` (with a `stack` for
the deployment test) or a `data` payload. -/
structure TestRecord where
  name : String
  status : String
  error : Option String := none
  stack : Option String := none
  data : Option JsValue := none

/-- The counters `endpointResult.summary` (lines 57-61). -/
structure Summary where
  total : Nat
  passed : Nat
  failed : Nat
  deriving DecidableEq, Repr

/-- The object `endpointResult` (lines 52-62), with the two fields the outer
`catch` may add. -/
structure EndpointResult where
  name : String
  url : String
  chainId : Nat
  tests : List TestRecord
  summary : Summary
  fatalError : Option String := none
  fatalStack : Option String := none

/-- A transaction receipt, as far as the script reads it; `status` may be
`null`, `logs` is `receipt.logs.length`. -/
structure Receipt where
  blockNumber : Nat
  gasUsed : Nat
  status : Option Nat
  logs : Nat

/-- Library functions the script calls, as parameters: `ethers.formatEther`,
the test `parseFloat(s) > 0` on its output, and the `stack` text of an error. -/
structure Library where
  formatEther : Nat → String
  positive : String → Bool
  stack : JsError → String

/-- How the endpoint answers each awaited or throwing call of one run, in the
order of the source.  A transaction is kept as its `hash`; `wait()` may give
`null` instead of a receipt, and `deploymentTransaction()` may give `null`.
The contract function `get()` returns one unsigned integer, as tests 5, 7 and
9 expect, so a decoded result holds a bigint. -/
structure Answers where
  createProvider : Except JsError String
  getNetwork : Except JsError Nat
  getBlockNumber : Except JsError Nat
  getBalance : Except JsError Nat
  getContractFactory : Except JsError Unit
  deploy : Except JsError Unit
  deploymentTransaction : Option String
  waitForDeployment : Except JsError Unit
  getAddress : Except JsError String
  getAddressAfter : Except JsError String
  initialGet : Except JsError Nat
  set42 : Except JsError String
  wait42 : Except JsError (Option Receipt)
  getAfter42 : Except JsError Nat
  set999 : Except JsError String
  wait999 : Except JsError (Option Receipt)
  getAfter999 : Except JsError Nat
  increment : Except JsError String
  waitIncrement : Except JsError (Option Receipt)
  getAfterIncrement : Except JsError Nat
  encodeGet : Except JsError String
  call : Except JsError String
  decodeGet : Except JsError Nat
  set12345 : Except JsError String
  wait12345 : Except JsError (Option Receipt)
  parseEvents : Except JsError JsValue

/-- A property read on a value that may be `null`: it throws a `TypeError` on
`null`. -/
def deref {α : Type} (value : Option α) : Except JsError α :=
  match value with
  | some a => .ok a
  | none => .error (typeError "Cannot read properties of null")

/-- The statement `endpointResult.summary.passed++`. -/
def passed (r : EndpointResult) : EndpointResult :=
  { r with summary := { r.summary with passed := r.summary.passed + 1 } }

/-- The statement `endpointResult.summary.failed++`. -/
def failed (r : EndpointResult) : EndpointResult :=
  { r with summary := { r.summary with failed := r.summary.failed + 1 } }

/-- The two statements that close every test:
`endpointResult.tests.push(test); endpointResult.summary.total++`. -/
def pushTest (r : EndpointResult) (test : TestRecord) : EndpointResult :=
  { r with tests := r.tests ++ [test], summary := { r.summary with total := r.summary.total + 1 } }

/-- How a stretch of the body of the outer `try` ends: it falls through to the
next statement, it executes `return endpointResult`, or it throws to the outer
`catch`. -/
inductive Step where
  | next (r : EndpointResult)
  | done (r : EndpointResult)
  | thrown (r : EndpointResult) (error : JsError)

/-- Sequencing of two stretches: the second runs only if the first falls
through. -/
def Step.andThen (s : Step) (rest : EndpointResult → Step) : Step :=
  match s with
  | .next r => rest r
  | other => other

/-- The receipt status as a JavaScript value. -/
def statusValue (status : Option Nat) : JsValue :=
  match status with
  | some n => .num (.ofNat n)
  | none => .null

/-- Test 1, network connectivity (lines 69-90).  A failure returns at once. -/
def testConnectivity (a : Answers) (r : EndpointResult) : Step :=
  let connectivityTest : TestRecord := { name := "Network Connectivity", status := "pending" }
  let body : Except JsError (Nat × Nat) := do
    let chainId ← a.getNetwork
    let blockNumber ← a.getBlockNumber
    pure (chainId, blockNumber)
  match body with
  | .ok (chainId, blockNumber) =>
      .next (pushTest (passed r)
        { connectivityTest with
          status := "passed"
          data := some (.obj [("chainId", .str (bigintToString chainId)),
                              ("blockNumber", .num (.ofNat blockNumber))]) })
  | .error error =>
      .done (pushTest (failed r)
        { connectivityTest with status := "failed", error := some error.message })

/-- Test 2, account balance (lines 93-117).  A zero balance is a `warning`,
counted as passed. -/
def testBalance (lib : Library) (a : Answers) (address : String) (r : EndpointResult) : Step :=
  let balanceTest : TestRecord := { name := "Account Balance", status := "pending" }
  match a.getBalance with
  | .ok balance =>
      let balanceFCO := lib.formatEther balance
      .next (pushTest (passed r)
        { balanceTest with
          status := if lib.positive balanceFCO then "passed" else "warning"
          data := some (.obj [("address", .str address), ("balance", .str balanceFCO)]) })
  | .error error =>
      .next (pushTest (failed r)
        { balanceTest with status := "failed", error := some error.message })

/-- Test 3, contract compilation (lines 120-138).  A failure returns at
once. -/
def testCompile (a : Answers) (r : EndpointResult) : Step :=
  let compileTest : TestRecord := { name := "Contract Compilation", status := "pending" }
  match a.getContractFactory with
  | .ok () => .next (pushTest (passed r) { compileTest with status := "passed" })
  | .error error =>
      .done (pushTest (failed r)
        { compileTest with status := "failed", error := some error.message })

/-- Test 4, contract deployment (lines 141-178).  A failure returns at once. -/
def testDeployment (lib : Library) (a : Answers) (r : EndpointResult) : Step :=
  let deploymentTest : TestRecord := { name := "Contract Deployment", status := "pending" }
  let body : Except JsError (String × String) := do
    a.deploy
    let hash ← deref a.deploymentTransaction
    a.waitForDeployment
    let contractAddress ← a.getAddress
    pure (contractAddress, hash)
  match body with
  | .ok (contractAddress, hash) =>
      .next (pushTest (passed r)
        { deploymentTest with
          status := "passed"
          data := some (.obj [("contractAddress", .str contractAddress),
                              ("deploymentTxHash", .str hash)]) })
  | .error error =>
      .done (pushTest (failed r)
        { deploymentTest with
          status := "failed", error := some error.message, stack := some (lib.stack error) })

/-- Line 180, `const contractAddress = await contract.getAddress()`, outside
every inner `try`: a rejection goes to the outer `catch`. -/
def readAddress (a : Answers) (r : EndpointResult) : Step :=
  match a.getAddressAfter with
  | .ok _ => .next r
  | .error error => .thrown r error

/-- Tests 5, 7 and 9 (lines 183-206, 245-268, 302-326): read the stored value
and compare its decimal string with the expected one. -/
def testRead (name expected : String) (get : Except JsError Nat) (r : EndpointResult) : Step :=
  let readTest : TestRecord := { name := name, status := "pending" }
  match get with
  | .ok value =>
      if bigintToString value = expected then
        .next (pushTest (passed r)
          { readTest with
            status := "passed", data := some (.obj [("value", .str (bigintToString value))]) })
      else
        .next (pushTest (failed r)
          { readTest with
            status := "failed", data := some (.obj [("value", .str (bigintToString value))]) })
  | .error error =>
      .next (pushTest (failed r) { readTest with status := "failed", error := some error.message })

/-- Test 6 (lines 209-242): send `set(42)`, wait for the receipt, pass when
`receipt.status === 1`. -/
def testWrite42 (a : Answers) (r : EndpointResult) : Step :=
  let writeTest1 : TestRecord := { name := "Write Operation (set 42)", status := "pending" }
  let body : Except JsError (String × Receipt) := do
    let hash ← a.set42
    let receipt ← deref (← a.wait42)
    pure (hash, receipt)
  match body with
  | .ok (hash, receipt) =>
      let data : JsValue :=
        .obj [("txHash", .str hash), ("blockNumber", .num (.ofNat receipt.blockNumber)),
              ("gasUsed", .str (bigintToString receipt.gasUsed)),
              ("status", statusValue receipt.status)]
      if receipt.status = some 1 then
        .next (pushTest (passed r) { writeTest1 with status := "passed", data := some data })
      else
        .next (pushTest (failed r) { writeTest1 with status := "failed", data := some data })
  | .error error =>
      .next (pushTest (failed r)
        { writeTest1 with status := "failed", error := some error.message })

/-- Test 8 (lines 271-300): send `set(999)`, likewise. -/
def testWrite999 (a : Answers) (r : EndpointResult) : Step :=
  let writeTest2 : TestRecord := { name := "Write Operation (set 999)", status := "pending" }
  let body : Except JsError (String × Receipt) := do
    let hash ← a.set999
    let receipt ← deref (← a.wait999)
    pure (hash, receipt)
  match body with
  | .ok (hash, receipt) =>
      let data : JsValue :=
        .obj [("txHash", .str hash), ("gasUsed", .str (bigintToString receipt.gasUsed)),
              ("status", statusValue receipt.status)]
      if receipt.status = some 1 then
        .next (pushTest (passed r) { writeTest2 with status := "passed", data := some data })
      else
        .next (pushTest (failed r) { writeTest2 with status := "failed", data := some data })
  | .error error =>
      .next (pushTest (failed r)
        { writeTest2 with status := "failed", error := some error.message })

/-- Test 10 (lines 329-361): send `increment()`, wait, read the value back and
expect 1000.  The receipt is not read, so a `null` one does no harm. -/
def testIncrement (a : Answers) (r : EndpointResult) : Step :=
  let incrementTest : TestRecord := { name := "Increment Operation", status := "pending" }
  let body : Except JsError (String × Nat) := do
    let hash ← a.increment
    let _receipt ← a.waitIncrement
    let value ← a.getAfterIncrement
    pure (hash, value)
  match body with
  | .ok (hash, value) =>
      let data : JsValue :=
        .obj [("txHash", .str hash), ("finalValue", .str (bigintToString value))]
      if bigintToString value = "1000" then
        .next (pushTest (passed r) { incrementTest with status := "passed", data := some data })
      else
        .next (pushTest (failed r) { incrementTest with status := "failed", data := some data })
  | .error error =>
      .next (pushTest (failed r)
        { incrementTest with status := "failed", error := some error.message })

/-- Test 11 (lines 364-402): a raw `eth_call` of `get()`, decoded before the
result is judged; it passes when the raw result is neither `0x` nor `0x0`. -/
def testEthCall (a : Answers) (r : EndpointResult) : Step :=
  let ethCallTest : TestRecord := { name := "Direct eth_call", status := "pending" }
  let body : Except JsError (String × Nat) := do
    let _data ← a.encodeGet
    let result ← a.call
    let decoded ← a.decodeGet
    pure (result, decoded)
  match body with
  | .ok (result, decoded) =>
      let data : JsValue :=
        .obj [("rawResult", .str result), ("decodedValue", .str (bigintToString decoded))]
      if result ≠ "0x" ∧ result ≠ "0x0" then
        .next (pushTest (passed r) { ethCallTest with status := "passed", data := some data })
      else
        .next (pushTest (failed r) { ethCallTest with status := "failed", data := some data })
  | .error error =>
      .next (pushTest (failed r)
        { ethCallTest with status := "failed", error := some error.message })

/-- Test 12 (lines 405-458): send `set(12345)` and look at the logs of the
receipt.  Parsing the logs has its own `try` whose `catch` only prints; no
logs at all is a `warning`, counted as passed. -/
def testEvents (a : Answers) (r : EndpointResult) : Step :=
  let eventTest : TestRecord := { name := "Event Emission", status := "pending" }
  let body : Except JsError Receipt := do
    let _hash ← a.set12345
    deref (← a.wait12345)
  match body with
  | .ok receipt =>
      if receipt.logs > 0 then
        let data : Option JsValue :=
          match a.parseEvents with
          | .ok parsedEvents =>
              some (.obj [("logsCount", .num (.ofNat receipt.logs)),
                          ("parsedEvents", parsedEvents)])
          | .error _ => none
        .next (pushTest (passed r) { eventTest with status := "passed", data := data })
      else
        .next (pushTest (passed r)
          { eventTest with
            status := "warning", data := some (.obj [("logsCount", .num (.ofNat 0))]) })
  | .error error =>
      .next (pushTest (failed r) { eventTest with status := "failed", error := some error.message })

/-- The body of the outer `try` (lines 65-458). -/
def runTests (lib : Library) (a : Answers) (r : EndpointResult) : Step :=
  match a.createProvider with
  | .error error => .thrown r error
  | .ok address =>
      (testConnectivity a r).andThen fun r =>
      (testBalance lib a address r).andThen fun r =>
      (testCompile a r).andThen fun r =>
      (testDeployment lib a r).andThen fun r =>
      (readAddress a r).andThen fun r =>
      (testRead "Initial Value Read" "0" a.initialGet r).andThen fun r =>
      (testWrite42 a r).andThen fun r =>
      (testRead "Read After Write (expected 42)" "42" a.getAfter42 r).andThen fun r =>
      (testWrite999 a r).andThen fun r =>
      (testRead "Read After Write (expected 999)" "999" a.getAfter999 r).andThen fun r =>
      (testIncrement a r).andThen fun r =>
      (testEthCall a r).andThen fun r =>
      testEvents a r

/-- The function `testEndpoint` (lines 45-476): the value it returns, by an
early `return`, at the end, or after the outer `catch` has noted the fatal
error. -/
def testEndpoint (lib : Library) (a : Answers) (endpoint : Endpoint) : EndpointResult :=
  let endpointResult : EndpointResult :=
    { name := endpoint.name
      url := endpoint.url
      chainId := endpoint.chainId
      tests := []
      summary := { total := 0, passed := 0, failed := 0 } }
  match runTests lib a endpointResult with
  | .next r => r
  | .done r => r
  | .thrown r error =>
      { r with fatalError := some error.message, fatalStack := some (lib.stack error) }

/-- The result a stretch leaves behind, however it ends. -/
def Step.result : Step → EndpointResult
  | .next r => r
  | .done r => r
  | .thrown r _ => r

/-- The counters agree with each other and with the list of records:
`total = passed + failed` and `total = tests.length`. -/
def EndpointResult.consistent (r : EndpointResult) : Prop :=
  r.summary.total = r.summary.passed + r.summary.failed ∧ r.summary.total = r.tests.length

/-- A stand-in for the three library functions, to evaluate the examples. -/
def exLibrary : Library :=
  { formatEther := fun wei => bigintToString wei ++ " wei"
    positive := fun s => decide (s ≠ "0 wei")
    stack := fun error => error.code ++ ": " ++ error.message }

/-- The first endpoint of `ENDPOINTS`. -/
def exEndpoint : Endpoint :=
  { name := "Legacy (Chain ID 1234)", url := "http://paratime.fanati.co:8545",
    chainId := 1234, network := "fanatico_v028" }

/-- A receipt of a successful transaction with one log. -/
def exReceipt : Receipt := { blockNumber := 10, gasUsed := 21000, status := some 1, logs := 1 }

/-- A run in which every call succeeds and every value is the expected one. -/
def exAllGood : Answers :=
  { createProvider := .ok "0xf39F"
    getNetwork := .ok 1234
    getBlockNumber := .ok 9
    getBalance := .ok 5
    getContractFactory := .ok ()
    deploy := .ok ()
    deploymentTransaction := some "0xaa"
    waitForDeployment := .ok ()
    getAddress := .ok "0xc0"
    getAddressAfter := .ok "0xc0"
    initialGet := .ok 0
    set42 := .ok "0x01"
    wait42 := .ok (some exReceipt)
    getAfter42 := .ok 42
    set999 := .ok "0x02"
    wait999 := .ok (some exReceipt)
    getAfter999 := .ok 999
    increment := .ok "0x03"
    waitIncrement := .ok (some exReceipt)
    getAfterIncrement := .ok 1000
    encodeGet := .ok "0x6d4ce63c"
    call := .ok "0x03e8"
    decodeGet := .ok 1000
    set12345 := .ok "0x04"
    wait12345 := .ok (some exReceipt)
    parseEvents := .ok (.arr []) }

/-- A run in which the deployment is rejected. -/
def exNoDeploy : Answers := { exAllGood with deploy := .error exError }

/-- A run in which the address cannot be read back after the deployment test
(line 180). -/
def exFatal : Answers := { exAllGood with getAddressAfter := .error exError }

end DeploymentTest

/-! ## Basic facts about `Promise.all` and the two segments -/

theorem toBool_eq_true_iff {ε α : Type} (x : Except ε α) :
    x.toBool = true ↔ ∃ a, x = .ok a := by
  cases x <;> simp [Except.toBool]

theorem promiseAll_of_anyRejected (l : Ledger) (h : l.anyRejected = true) :
    ∃ e, promiseAll l = .error e ∧ e ∈ l.rejections := by
  obtain ⟨a, b, c, d, e, f, g, i, j⟩ := l
  rcases a with x | a
  · exact ⟨x, rfl, by simp [Ledger.rejections]⟩
  rcases b with x | b
  · exact ⟨x, rfl, by simp [Ledger.rejections]⟩
  rcases c with x | c
  · exact ⟨x, rfl, by simp [Ledger.rejections]⟩
  rcases d with x | d
  · exact ⟨x, rfl, by simp [Ledger.rejections]⟩
  rcases e with x | e
  · exact ⟨x, rfl, by simp [Ledger.rejections]⟩
  rcases f with x | f
  · exact ⟨x, rfl, by simp [Ledger.rejections]⟩
  rcases g with x | g
  · exact ⟨x, rfl, by simp [Ledger.rejections]⟩
  rcases i with x | i
  · exact ⟨x, rfl, by simp [Ledger.rejections]⟩
  rcases j with x | j
  · exact ⟨x, rfl, by simp [Ledger.rejections]⟩
  simp [Ledger.anyRejected, Except.toBool] at h

theorem promiseAll_of_not_anyRejected (l : Ledger) (h : l.anyRejected = false) :
    ∃ v, promiseAll l = .ok v ∧ l.name = .ok v.name ∧ l.symbol = .ok v.symbol ∧
      l.decimals = .ok v.decimals ∧ l.totalSupply = .ok v.totalSupply ∧
      l.epochDuration = .ok v.epochDuration ∧ l.lockDuration = .ok v.lockDuration ∧
      l.currentEpoch = .ok v.currentEpoch ∧ l.ethReserve = .ok v.ethReserve ∧
      l.chainId = .ok v.chainId := by
  obtain ⟨a, b, c, d, e, f, g, i, j⟩ := l
  simp only [Ledger.anyRejected, Bool.not_eq_false', Bool.and_eq_true,
    toBool_eq_true_iff] at h
  obtain ⟨⟨⟨⟨⟨⟨⟨⟨⟨a, rfl⟩, ⟨b, rfl⟩⟩, ⟨c, rfl⟩⟩, ⟨d, rfl⟩⟩, ⟨e, rfl⟩⟩, ⟨f, rfl⟩⟩,
    ⟨g, rfl⟩⟩, ⟨i, rfl⟩⟩, ⟨j, rfl⟩⟩ := h
  exact ⟨⟨a, b, c, d, e, f, g, i, j⟩, rfl, rfl, rfl, rfl, rfl, rfl, rfl, rfl, rfl, rfl⟩

/-- A fulfilled `Promise.all` means that no read rejected. -/
theorem not_anyRejected_of_promiseAll (l : Ledger) (v : Values)
    (h : promiseAll l = .ok v) : l.anyRejected = false := by
  cases hr : l.anyRejected
  · rfl
  · obtain ⟨e, he, _⟩ := promiseAll_of_anyRejected l hr
    rw [he] at h; cases h

/-- The state is stale or empty: the call goes on to the reads. -/
theorem getMetricsEnter_of_stale (st : State) (now : Int)
    (h : st.metricsCache = none ∨ 60000 ≤ now - st.cacheTimestamp) :
    getMetricsEnter st now = (.awaiting now, allReads) := by
  unfold getMetricsEnter
  rcases hc : st.metricsCache with _ | cached
  · rfl
  · rcases h with h | h
    · rw [hc] at h; cases h
    · have : ¬ (now - st.cacheTimestamp < CACHE_TTL) := by
        unfold CACHE_TTL; omega
      simp [this]

/-- The state holds a fresh entry: the call returns it. -/
theorem getMetricsEnter_of_fresh (st : State) (now : Int) (cached : MetricsSnapshot)
    (hc : st.metricsCache = some cached) (h : now - st.cacheTimestamp < 60000) :
    getMetricsEnter st now = (.hit cached, []) := by
  unfold getMetricsEnter
  rw [hc]
  have : now - st.cacheTimestamp < CACHE_TTL := by unfold CACHE_TTL; omega
  simp [this]

theorem getMetrics_of_fresh (cfg : Config) (st : State) (now : Int) (ledger : Ledger)
    (stamp : Int) (cached : MetricsSnapshot)
    (hc : st.metricsCache = some cached) (h : now - st.cacheTimestamp < 60000) :
    getMetrics cfg st now ledger stamp = { result := .ok cached, state := st, reads := [] } := by
  unfold getMetrics
  rw [getMetricsEnter_of_fresh st now cached hc h]

theorem getMetrics_of_stale_ok (cfg : Config) (st : State) (now : Int) (ledger : Ledger)
    (stamp : Int) (v : Values)
    (h : st.metricsCache = none ∨ 60000 ≤ now - st.cacheTimestamp)
    (hv : promiseAll ledger = .ok v) :
    getMetrics cfg st now ledger stamp =
      { result := .ok (assemble cfg v stamp)
        state := { metricsCache := some (assemble cfg v stamp), cacheTimestamp := now }
        reads := allReads } := by
  unfold getMetrics
  rw [getMetricsEnter_of_stale st now h]
  simp [getMetricsResume, hv]

theorem getMetrics_of_stale_error (cfg : Config) (st : State) (now : Int) (ledger : Ledger)
    (stamp : Int) (e : JsError)
    (h : st.metricsCache = none ∨ 60000 ≤ now - st.cacheTimestamp)
    (he : promiseAll ledger = .error e) :
    getMetrics cfg st now ledger stamp =
      { result := .error e, state := st, reads := allReads } := by
  unfold getMetrics
  rw [getMetricsEnter_of_stale st now h]
  simp [getMetricsResume, he]

/-- Every state is either fresh at `now` or stale/empty. -/
theorem fresh_or_stale (st : State) (now : Int) :
    (∃ cached, st.metricsCache = some cached ∧ now - st.cacheTimestamp < 60000) ∨
    (st.metricsCache = none ∨ 60000 ≤ now - st.cacheTimestamp) := by
  rcases hc : st.metricsCache with _ | cached
  · exact Or.inr (Or.inl rfl)
  · by_cases h : now - st.cacheTimestamp < 60000
    · exact Or.inl ⟨cached, rfl, h⟩
    · exact Or.inr (Or.inr (by omega))

/-- The three ways a call can go. -/
theorem getMetrics_cases (cfg : Config) (st : State) (now : Int) (ledger : Ledger)
    (stamp : Int) :
    (∃ cached, st.metricsCache = some cached ∧ now - st.cacheTimestamp < 60000 ∧
      getMetrics cfg st now ledger stamp
        = { result := .ok cached, state := st, reads := [] }) ∨
    (∃ v, (st.metricsCache = none ∨ 60000 ≤ now - st.cacheTimestamp) ∧
      promiseAll ledger = .ok v ∧
      getMetrics cfg st now ledger stamp =
        { result := .ok (assemble cfg v stamp)
          state := { metricsCache := some (assemble cfg v stamp), cacheTimestamp := now }
          reads := allReads }) ∨
    (∃ e, (st.metricsCache = none ∨ 60000 ≤ now - st.cacheTimestamp) ∧
      promiseAll ledger = .error e ∧
      getMetrics cfg st now ledger stamp
        = { result := .error e, state := st, reads := allReads }) := by
  rcases fresh_or_stale st now with ⟨cached, hc, hf⟩ | hs
  · exact Or.inl ⟨cached, hc, hf, getMetrics_of_fresh cfg st now ledger stamp cached hc hf⟩
  · rcases hp : promiseAll ledger with e | v
    · exact Or.inr (Or.inr ⟨e, hs, rfl, getMetrics_of_stale_error cfg st now ledger stamp e hs hp⟩)
    · exact Or.inr (Or.inl ⟨v, hs, rfl, getMetrics_of_stale_ok cfg st now ledger stamp v hs hp⟩)

/-- Whatever holds of the cached snapshot and of every snapshot a call of the
sequence can assemble holds of every snapshot the sequence returns. -/
theorem runCalls_returns (P : MetricsSnapshot → Prop) (cfg : Config) :
    ∀ (calls : List Call) (st : State),
      (∀ m, st.metricsCache = some m → P m) →
      (∀ c ∈ calls, ∀ v, promiseAll c.ledger = .ok v → P (assemble cfg v c.stamp)) →
      ∀ o ∈ runCalls cfg st calls, ∀ m, o.result = .ok m → P m := by
  intro calls
  induction calls with
  | nil => intro st _ _ o ho; simp [runCalls] at ho
  | cons c cs ih =>
    intro st hst hP o ho m hm
    simp only [runCalls, List.mem_cons] at ho
    have hcs : ∀ c' ∈ cs, ∀ v, promiseAll c'.ledger = .ok v → P (assemble cfg v c'.stamp) :=
      fun c' hc' => hP c' (List.mem_cons_of_mem _ hc')
    rcases getMetrics_cases cfg st c.now c.ledger c.stamp with
      ⟨cached, hc, _, hg⟩ | ⟨v, _, hv, hg⟩ | ⟨e, _, _, hg⟩
    · rw [hg] at ho
      rcases ho with rfl | ho
      · cases hm; exact hst _ hc
      · exact ih st hst hcs o ho m hm
    · rw [hg] at ho
      rcases ho with rfl | ho
      · cases hm; exact hP c (List.mem_cons_self _ _) v hv
      · refine ih _ ?_ hcs o ho m hm
        intro m' hm'
        cases hm'
        exact hP c (List.mem_cons_self _ _) v hv
    · rw [hg] at ho
      rcases ho with rfl | ho
      · cases hm
      · exact ih st hst hcs o ho m hm

/-- While every call falls inside the TTL window of the cached entry, the
sequence only returns that entry, reads nothing and changes nothing. -/
theorem runCalls_in_window (cfg : Config) (cached : MetricsSnapshot) (t0 : Int) :
    ∀ (calls : List Call), (∀ c ∈ calls, c.now < t0 + 60000) →
      (∀ o ∈ runCalls cfg { metricsCache := some cached, cacheTimestamp := t0 } calls,
        o.result = .ok cached) ∧
      readsIssued (runCalls cfg { metricsCache := some cached, cacheTimestamp := t0 } calls)
        = [] ∧
      finalState cfg { metricsCache := some cached, cacheTimestamp := t0 } calls
        = { metricsCache := some cached, cacheTimestamp := t0 } := by
  intro calls
  induction calls with
  | nil => intro _; simp [runCalls, readsIssued, finalState]
  | cons c cs ih =>
    intro h
    have hc : c.now - t0 < 60000 := by
      have := h c (List.mem_cons_self _ _); omega
    have hg := getMetrics_of_fresh cfg { metricsCache := some cached, cacheTimestamp := t0 }
      c.now c.ledger c.stamp cached rfl hc
    obtain ⟨h1, h2, h3⟩ := ih (fun c' hc' => h c' (List.mem_cons_of_mem _ hc'))
    refine ⟨?_, ?_, ?_⟩
    · intro o ho
      simp only [runCalls, hg, List.mem_cons] at ho
      rcases ho with rfl | ho
      · rfl
      · exact h1 o ho
    · simp only [readsIssued] at h2
      simp [runCalls, hg, readsIssued, h2]
    · simp only [finalState, hg]
      exact h3

/-- Integers below `2 ^ 53` convert to a number exactly. -/
theorem Number_of_lt (b : Nat) (h : b < 2 ^ 53) : Number b = b := by
  unfold Number
  exact if_pos h

/-- Reading back the digits written by `Nat.toDigitsCore` in base ten. -/
theorem foldl_toDigitsCore (fuel : Nat) :
    ∀ (n : Nat) (ds : List Char), n < fuel →
      (Nat.toDigitsCore 10 fuel n ds).foldl (fun acc c => acc * 10 + (c.toNat - 48)) 0
        = ds.foldl (fun acc c => acc * 10 + (c.toNat - 48)) n := by
  induction fuel with
  | zero => intro n ds h; omega
  | succ fuel ih =>
    intro n ds h
    have hd : (Nat.digitChar (n % 10)).toNat - 48 = n % 10 := by
      have hlt : n % 10 < 10 := Nat.mod_lt _ (by decide)
      generalize n % 10 = k at hlt
      interval_cases k <;> rfl
    unfold Nat.toDigitsCore
    by_cases h0 : n / 10 = 0
    · simp only [h0, if_true, List.foldl_cons, hd]
      have : n % 10 = n := by omega
      simp [this]
    · simp only [h0, if_false]
      rw [ih (n / 10) _ (by omega)]
      simp only [List.foldl_cons, hd]
      have : n / 10 * 10 + n % 10 = n := by omega
      rw [this]

/-- The decimal string of a bigint denotes that bigint: `toString()` loses
nothing. -/
theorem parseDecimal_bigintToString (b : Nat) : parseDecimal (bigintToString b) = b := by
  unfold parseDecimal bigintToString Nat.repr Nat.toDigits
  simp only [List.asString]
  rw [foldl_toDigitsCore (b + 1) b [] (by omega)]
  rfl

/-- Overlapping callers that all went on to the reads each resume with the
values of their own reads. -/
theorem resumeAll_awaiting (cfg : Config) :
    ∀ (calls : List Call) (st : State),
      (resumeAll cfg st (calls.map fun c => (Entered.awaiting c.now, c))).1
        = calls.map fun c => (promiseAll c.ledger).map fun v => assemble cfg v c.stamp := by
  intro calls
  induction calls with
  | nil => intro st; rfl
  | cons c cs ih =>
    intro st
    simp only [List.map_cons, resumeAll]
    rw [← ih (getMetricsResume cfg st c.now (promiseAll c.ledger) c.stamp).2]
    cases hp : promiseAll c.ledger <;> simp [getMetricsResume, Except.map]

/-- The cache ends up with the assignment of the caller that resumes last. -/
theorem resumeAll_awaiting_state (cfg : Config) :
    ∀ (calls : List Call) (st : State) (c : Call) (v : Values),
      calls.getLast? = some c → promiseAll c.ledger = .ok v →
      (resumeAll cfg st (calls.map fun c => (Entered.awaiting c.now, c))).2
        = { metricsCache := some (assemble cfg v c.stamp), cacheTimestamp := c.now } := by
  intro calls
  induction calls with
  | nil => intro st c v h; simp at h
  | cons c0 cs ih =>
    intro st c v hlast hv
    cases cs with
    | nil =>
      simp only [List.getLast?_singleton, Option.some.injEq] at hlast
      subst hlast
      simp [resumeAll, getMetricsResume, hv]
    | cons c1 cs =>
      have hlast' : (c1 :: cs).getLast? = some c := by
        simpa [List.getLast?_cons_cons] using hlast
      have := ih (getMetricsResume cfg st c0.now (promiseAll c0.ledger) c0.stamp).2 c v hlast' hv
      rw [← this]
      simp only [List.map_cons, resumeAll]

theorem runCalls_length (cfg : Config) :
    ∀ (calls : List Call) (st : State), (runCalls cfg st calls).length = calls.length := by
  intro calls
  induction calls with
  | nil => intro st; rfl
  | cons c cs ih => intro st; simp [runCalls, ih]

/-! ## The cache contract of `getMetrics` -/

/-- C1: in a state that holds a cached snapshot, a call at a clock value `now`
with `now - cacheTimestamp < 60000` returns exactly that snapshot, issues no
ledger read, and leaves `metricsCache` and `cacheTimestamp` unchanged. -/
theorem getMetrics_fresh_returns_cached (cfg : Config) (st : State) (now : Int)
    (ledger : Ledger) (stamp : Int) (cached : MetricsSnapshot)
    (hc : st.metricsCache = some cached) (hfresh : now - st.cacheTimestamp < 60000) :
    (getMetrics cfg st now ledger stamp).result = .ok cached ∧
    (getMetrics cfg st now ledger stamp).reads = [] ∧
    (getMetrics cfg st now ledger stamp).state.metricsCache = st.metricsCache ∧
    (getMetrics cfg st now ledger stamp).state.cacheTimestamp = st.cacheTimestamp := by
  rw [getMetrics_of_fresh cfg st now ledger stamp cached hc hfresh]
  exact ⟨rfl, rfl, rfl, rfl⟩

theorem getMetrics_fresh_returns_cached_witness :
    (exCached.metricsCache = some exSnapshot ∧ (30000 : Int) - exCached.cacheTimestamp < 60000) ∧
    ((getMetrics CONFIG exCached 30000 exDown 30000).result = .ok exSnapshot ∧
     (getMetrics CONFIG exCached 30000 exDown 30000).reads = [] ∧
     (getMetrics CONFIG exCached 30000 exDown 30000).state.metricsCache = exCached.metricsCache ∧
     (getMetrics CONFIG exCached 30000 exDown 30000).state.cacheTimestamp
       = exCached.cacheTimestamp) :=
  ⟨⟨rfl, by decide⟩,
   getMetrics_fresh_returns_cached CONFIG exCached 30000 exDown 30000 exSnapshot rfl (by decide)⟩

/-- C2 as stated fails: with `exSnapshot` cached since 1000 and a call at 61000
(age 60000, the TTL) whose `totalSupply()` read rejects, `getMetrics` raises
the read's error instead of returning the cached snapshot. -/
theorem getMetrics_stale_failure_counterexample :
    exCached.metricsCache = some exSnapshot ∧
    (60000 : Int) ≤ 61000 - exCached.cacheTimestamp ∧
    exDown.anyRejected = true ∧
    (getMetrics CONFIG exCached 61000 exDown 61000).result = .error exError ∧
    (getMetrics CONFIG exCached 61000 exDown 61000).result ≠ .ok exSnapshot := by
  refine ⟨rfl, by decide, rfl, rfl, ?_⟩
  intro h
  have h2 : (getMetrics CONFIG exCached 61000 exDown 61000).result = .error exError := rfl
  rw [h2] at h
  cases h

/-- C2 amended: in a state that holds a cached snapshot of age at least the
TTL, if any ledger read of the refresh rejects, `getMetrics` raises the error
of a rejected read; the nine reads were issued and the previous snapshot and
its timestamp stay in the cache. -/
theorem getMetrics_stale_failure_rethrows (cfg : Config) (st : State) (now : Int)
    (ledger : Ledger) (stamp : Int) (cached : MetricsSnapshot)
    (hc : st.metricsCache = some cached) (hstale : 60000 ≤ now - st.cacheTimestamp)
    (hfail : ledger.anyRejected = true) :
    ∃ e, e ∈ ledger.rejections ∧
      (getMetrics cfg st now ledger stamp).result = .error e ∧
      (getMetrics cfg st now ledger stamp).reads = allReads ∧
      (getMetrics cfg st now ledger stamp).state.metricsCache = some cached ∧
      (getMetrics cfg st now ledger stamp).state.cacheTimestamp = st.cacheTimestamp := by
  obtain ⟨e, he, hmem⟩ := promiseAll_of_anyRejected ledger hfail
  refine ⟨e, hmem, ?_⟩
  rw [getMetrics_of_stale_error cfg st now ledger stamp e (Or.inr hstale) he]
  exact ⟨rfl, rfl, hc, rfl⟩

theorem getMetrics_stale_failure_rethrows_witness :
    (exCached.metricsCache = some exSnapshot ∧
     (60000 : Int) ≤ 61000 - exCached.cacheTimestamp ∧ exDown.anyRejected = true) ∧
    ∃ e, e ∈ exDown.rejections ∧
      (getMetrics CONFIG exCached 61000 exDown 61000).result = .error e ∧
      (getMetrics CONFIG exCached 61000 exDown 61000).reads = allReads ∧
      (getMetrics CONFIG exCached 61000 exDown 61000).state.metricsCache = some exSnapshot ∧
      (getMetrics CONFIG exCached 61000 exDown 61000).state.cacheTimestamp
        = exCached.cacheTimestamp :=
  ⟨⟨rfl, by decide, rfl⟩,
   getMetrics_stale_failure_rethrows CONFIG exCached 61000 exDown 61000 exSnapshot rfl
     (by decide) rfl⟩

/-- C3 as stated fails: from the initial state, when the `totalSupply()` read
rejects with a `NETWORK_ERROR`, the error `getMetrics` raises is that very
error, whose code is not `UpstreamUnavailable`. -/
theorem getMetrics_cold_failure_counterexample :
    State.initial.metricsCache = none ∧ exDown.anyRejected = true ∧
    (getMetrics CONFIG State.initial 5 exDown 5).result = .error exError ∧
    exError.code = "NETWORK_ERROR" ∧ exError.code ≠ "UpstreamUnavailable" := by
  refine ⟨rfl, rfl, rfl, rfl, by decide⟩

/-- C3 amended: when the cache is empty and a ledger read rejects, `getMetrics`
fails, and the error it raises is the error of a rejected read, rethrown as it
was caught; the cache stays empty. -/
theorem getMetrics_cold_failure_rethrows (cfg : Config) (st : State) (now : Int)
    (ledger : Ledger) (stamp : Int)
    (hc : st.metricsCache = none) (hfail : ledger.anyRejected = true) :
    ∃ e, e ∈ ledger.rejections ∧ promiseAll ledger = .error e ∧
      (getMetrics cfg st now ledger stamp).result = .error e ∧
      (getMetrics cfg st now ledger stamp).state = st := by
  obtain ⟨e, he, hmem⟩ := promiseAll_of_anyRejected ledger hfail
  refine ⟨e, hmem, he, ?_⟩
  rw [getMetrics_of_stale_error cfg st now ledger stamp e (Or.inl hc) he]
  exact ⟨rfl, rfl⟩

theorem getMetrics_cold_failure_rethrows_witness :
    (State.initial.metricsCache = none ∧ exDown.anyRejected = true) ∧
    ∃ e, e ∈ exDown.rejections ∧ promiseAll exDown = .error e ∧
      (getMetrics CONFIG State.initial 5 exDown 5).result = .error e ∧
      (getMetrics CONFIG State.initial 5 exDown 5).state = State.initial :=
  ⟨⟨rfl, rfl⟩, getMetrics_cold_failure_rethrows CONFIG State.initial 5 exDown 5 rfl rfl⟩

/-- C4: for every state, when any one of the nine ledger reads rejects, the
cache state after the `getMetrics` call equals the cache state before it:
`metricsCache` and `cacheTimestamp` are both unchanged. -/
theorem getMetrics_failure_keeps_cache (cfg : Config) (st : State) (now : Int)
    (ledger : Ledger) (stamp : Int) (hfail : ledger.anyRejected = true) :
    (getMetrics cfg st now ledger stamp).state.metricsCache = st.metricsCache ∧
    (getMetrics cfg st now ledger stamp).state.cacheTimestamp = st.cacheTimestamp := by
  obtain ⟨e, he, _⟩ := promiseAll_of_anyRejected ledger hfail
  rcases fresh_or_stale st now with ⟨cached, hc, hf⟩ | hs
  · rw [getMetrics_of_fresh cfg st now ledger stamp cached hc hf]
    exact ⟨rfl, rfl⟩
  · rw [getMetrics_of_stale_error cfg st now ledger stamp e hs he]
    exact ⟨rfl, rfl⟩

theorem getMetrics_failure_keeps_cache_witness :
    exDown.anyRejected = true ∧
    ((getMetrics CONFIG exCached 61000 exDown 61000).state.metricsCache
       = exCached.metricsCache ∧
     (getMetrics CONFIG exCached 61000 exDown 61000).state.cacheTimestamp
       = exCached.cacheTimestamp) :=
  ⟨rfl, getMetrics_failure_keeps_cache CONFIG exCached 61000 exDown 61000 rfl⟩

/-- C5: in a call that performs a refresh (the cache is empty or its entry is
at least 60000 ms old), a snapshot is returned only if all nine reads
fulfilled, and it is then the snapshot assembled from those nine values, which
is also the one cached; if at least one read rejects, the call returns no
snapshot and the cache is left as it was. -/
theorem getMetrics_refresh_all_or_nothing (cfg : Config) (st : State) (now : Int)
    (ledger : Ledger) (stamp : Int)
    (hstale : st.metricsCache = none ∨ 60000 ≤ now - st.cacheTimestamp) :
    (∀ m, (getMetrics cfg st now ledger stamp).result = .ok m →
      ∃ v, ledger.name = .ok v.name ∧ ledger.symbol = .ok v.symbol ∧
        ledger.decimals = .ok v.decimals ∧ ledger.totalSupply = .ok v.totalSupply ∧
        ledger.epochDuration = .ok v.epochDuration ∧
        ledger.lockDuration = .ok v.lockDuration ∧
        ledger.currentEpoch = .ok v.currentEpoch ∧ ledger.ethReserve = .ok v.ethReserve ∧
        ledger.chainId = .ok v.chainId ∧ m = assemble cfg v stamp ∧
        (getMetrics cfg st now ledger stamp).state.metricsCache = some m) ∧
    ((getMetrics cfg st now ledger stamp).state ≠ st → ledger.anyRejected = false) ∧
    (ledger.anyRejected = true →
      (∃ e, (getMetrics cfg st now ledger stamp).result = .error e) ∧
      (getMetrics cfg st now ledger stamp).state = st) := by
  cases hr : ledger.anyRejected
  · obtain ⟨v, hv, h1, h2, h3, h4, h5, h6, h7, h8, h9⟩ :=
      promiseAll_of_not_anyRejected ledger hr
    rw [getMetrics_of_stale_ok cfg st now ledger stamp v hstale hv]
    refine ⟨?_, fun _ => rfl, fun h => by cases h⟩
    intro m hm
    cases hm
    exact ⟨v, h1, h2, h3, h4, h5, h6, h7, h8, h9, rfl, rfl⟩
  · obtain ⟨e, he, _⟩ := promiseAll_of_anyRejected ledger hr
    rw [getMetrics_of_stale_error cfg st now ledger stamp e hstale he]
    refine ⟨?_, fun h => absurd rfl h, fun _ => ⟨⟨e, rfl⟩, rfl⟩⟩
    intro m hm
    cases hm

theorem getMetrics_refresh_all_or_nothing_witness :
    (State.initial.metricsCache = none ∨ (60000 : Int) ≤ 5 - State.initial.cacheTimestamp) ∧
    (getMetrics CONFIG State.initial 5 (Ledger.healthy exValues) 1000).result
      = .ok exSnapshot ∧
    (exDown.anyRejected = true →
      (∃ e, (getMetrics CONFIG State.initial 5 exDown 5).result = .error e) ∧
      (getMetrics CONFIG State.initial 5 exDown 5).state = State.initial) :=
  ⟨Or.inl rfl, rfl,
   (getMetrics_refresh_all_or_nothing CONFIG State.initial 5 exDown 5 (Or.inl rfl)).2.2⟩

/-- C6: a sequence of sequential calls that starts with a successful refresh
at `t0` and whose later calls all come at times `t` with `t0 ≤ t < t0 + 60000`
returns, at every call, the snapshot assembled by that first refresh, which is
the entry left in the cache; the reads issued over the whole sequence are the
nine reads of that one refresh, whatever the ledger answers later. -/
theorem getMetrics_window_single_refresh (cfg : Config) (st : State) (c0 : Call)
    (rest : List Call) (v : Values)
    (hstale : st.metricsCache = none ∨ 60000 ≤ c0.now - st.cacheTimestamp)
    (hv : promiseAll c0.ledger = .ok v)
    (hwin : ∀ c ∈ rest, c0.now ≤ c.now ∧ c.now < c0.now + 60000) :
    (runCalls cfg st (c0 :: rest)).length = rest.length + 1 ∧
    (∀ o ∈ runCalls cfg st (c0 :: rest), o.result = .ok (assemble cfg v c0.stamp)) ∧
    readsIssued (runCalls cfg st (c0 :: rest)) = allReads ∧
    finalState cfg st (c0 :: rest)
      = { metricsCache := some (assemble cfg v c0.stamp), cacheTimestamp := c0.now } := by
  have hg := getMetrics_of_stale_ok cfg st c0.now c0.ledger c0.stamp v hstale hv
  obtain ⟨h1, h2, h3⟩ := runCalls_in_window cfg (assemble cfg v c0.stamp) c0.now rest
    (fun c hc => (hwin c hc).2)
  refine ⟨by simp [runCalls_length], ?_, ?_, ?_⟩
  · intro o ho
    simp only [runCalls, hg, List.mem_cons] at ho
    rcases ho with rfl | ho
    · rfl
    · exact h1 o ho
  · simp only [readsIssued] at h2
    simp [runCalls, hg, readsIssued, h2]
  · simp only [finalState, hg]
    exact h3

theorem getMetrics_window_single_refresh_witness :
    (State.initial.metricsCache = none ∧ promiseAll exFirst.ledger = .ok exValues ∧
      ∀ c ∈ exLater, exFirst.now ≤ c.now ∧ c.now < exFirst.now + 60000) ∧
    (runCalls CONFIG State.initial (exFirst :: exLater)).length = 3 ∧
    (∀ o ∈ runCalls CONFIG State.initial (exFirst :: exLater),
      o.result = .ok (assemble CONFIG exValues 3)) ∧
    readsIssued (runCalls CONFIG State.initial (exFirst :: exLater)) = allReads ∧
    finalState CONFIG State.initial (exFirst :: exLater)
      = { metricsCache := some (assemble CONFIG exValues 3), cacheTimestamp := 0 } :=
  have hwin : ∀ c ∈ exLater, exFirst.now ≤ c.now ∧ c.now < exFirst.now + 60000 := by
    intro c hc
    simp only [exLater, List.mem_cons, List.mem_singleton, List.not_mem_nil, or_false] at hc
    rcases hc with rfl | rfl <;> decide
  ⟨⟨rfl, rfl, hwin⟩,
   getMetrics_window_single_refresh CONFIG State.initial exFirst exLater exValues
     (Or.inl rfl) rfl hwin⟩

/-- C7: with the TTL of 60000 ms, `getMetrics` serves the cached entry (returns
it with no ledger read) if and only if an entry exists and
`now - cacheTimestamp < 60000`, and performs a refresh otherwise.  After a
refresh at `t = 0` that reads a total supply of 1,000,000, a call at
`t = 30000` returns total 1,000,000 with no ledger read, and the calls at
`t = 61000` and at exactly `t = 60000` issue the nine reads again. -/
theorem getMetrics_serves_cache_iff_fresh :
    (∀ (cfg : Config) (st : State) (now : Int) (ledger : Ledger) (stamp : Int),
      ((getMetrics cfg st now ledger stamp).reads = [] ∧
        ∃ cached, st.metricsCache = some cached ∧
          (getMetrics cfg st now ledger stamp).result = .ok cached) ↔
      (st.metricsCache.isSome = true ∧ now - st.cacheTimestamp < 60000)) ∧
    (∀ (cfg : Config) (st : State) (now : Int) (ledger : Ledger) (stamp : Int),
      ¬ (st.metricsCache.isSome = true ∧ now - st.cacheTimestamp < 60000) →
      (getMetrics cfg st now ledger stamp).reads = allReads) ∧
    (∀ (cfg : Config) (l0 : Ledger) (v : Values) (s0 : Int),
      promiseAll l0 = .ok v → v.totalSupply = 1000000 →
      (getMetrics cfg State.initial 0 l0 s0).reads = allReads ∧
      (getMetrics cfg State.initial 0 l0 s0).result = .ok (assemble cfg v s0) ∧
      (assemble cfg v s0).supply.total = 1000000 ∧
      (∀ (l1 : Ledger) (s1 : Int),
        (getMetrics cfg (getMetrics cfg State.initial 0 l0 s0).state 30000 l1 s1).result
          = .ok (assemble cfg v s0) ∧
        (getMetrics cfg (getMetrics cfg State.initial 0 l0 s0).state 30000 l1 s1).reads
          = []) ∧
      (∀ (l2 : Ledger) (s2 : Int),
        (getMetrics cfg (getMetrics cfg State.initial 0 l0 s0).state 61000 l2 s2).reads
          = allReads ∧
        (getMetrics cfg (getMetrics cfg State.initial 0 l0 s0).state 60000 l2 s2).reads
          = allReads)) := by
  have hstale_reads : ∀ (cfg : Config) (st : State) (now : Int) (ledger : Ledger)
      (stamp : Int), (st.metricsCache = none ∨ 60000 ≤ now - st.cacheTimestamp) →
      (getMetrics cfg st now ledger stamp).reads = allReads := by
    intro cfg st now ledger stamp hs
    rcases hp : promiseAll ledger with e | v
    · rw [getMetrics_of_stale_error cfg st now ledger stamp e hs hp]
    · rw [getMetrics_of_stale_ok cfg st now ledger stamp v hs hp]
  refine ⟨?_, ?_, ?_⟩
  · intro cfg st now ledger stamp
    constructor
    · rintro ⟨hr, cached, hc, _⟩
      rcases fresh_or_stale st now with ⟨cached', _, hf⟩ | hs
      · exact ⟨by simp [hc], hf⟩
      · rw [hstale_reads cfg st now ledger stamp hs] at hr
        cases hr
    · rintro ⟨hsome, hf⟩
      obtain ⟨cached, hc⟩ := Option.isSome_iff_exists.1 hsome
      rw [getMetrics_of_fresh cfg st now ledger stamp cached hc hf]
      exact ⟨rfl, cached, hc, rfl⟩
  · intro cfg st now ledger stamp hn
    apply hstale_reads
    rcases fresh_or_stale st now with ⟨cached, hc, hf⟩ | hs
    · exact absurd ⟨by simp [hc], hf⟩ hn
    · exact hs
  · intro cfg l0 v s0 hv ht
    rw [getMetrics_of_stale_ok cfg State.initial 0 l0 s0 v (Or.inl rfl) hv]
    refine ⟨rfl, rfl, ?_, ?_, ?_⟩
    · show Number v.totalSupply = 1000000
      rw [ht]; exact Number_of_lt _ (by decide)
    · intro l1 s1
      rw [getMetrics_of_fresh cfg _ 30000 l1 s1 (assemble cfg v s0) rfl
        (show (30000 : Int) - 0 < 60000 by decide)]
      exact ⟨rfl, rfl⟩
    · intro l2 s2
      exact ⟨hstale_reads cfg _ 61000 l2 s2 (Or.inr (show (60000 : Int) ≤ 61000 - 0 by decide)),
             hstale_reads cfg _ 60000 l2 s2 (Or.inr (show (60000 : Int) ≤ 60000 - 0 by decide))⟩

theorem getMetrics_serves_cache_iff_fresh_witness :
    (promiseAll exFirst.ledger = .ok exValues ∧ exValues.totalSupply = 1000000) ∧
    (getMetrics CONFIG State.initial 0 exFirst.ledger 3).reads = allReads ∧
    (getMetrics CONFIG State.initial 0 exFirst.ledger 3).result
      = .ok (assemble CONFIG exValues 3) ∧
    (assemble CONFIG exValues 3).supply.total = 1000000 ∧
    (∀ (l1 : Ledger) (s1 : Int),
      (getMetrics CONFIG (getMetrics CONFIG State.initial 0 exFirst.ledger 3).state
          30000 l1 s1).result = .ok (assemble CONFIG exValues 3) ∧
      (getMetrics CONFIG (getMetrics CONFIG State.initial 0 exFirst.ledger 3).state
          30000 l1 s1).reads = []) ∧
    (∀ (l2 : Ledger) (s2 : Int),
      (getMetrics CONFIG (getMetrics CONFIG State.initial 0 exFirst.ledger 3).state
          61000 l2 s2).reads = allReads ∧
      (getMetrics CONFIG (getMetrics CONFIG State.initial 0 exFirst.ledger 3).state
          60000 l2 s2).reads = allReads) :=
  ⟨⟨rfl, rfl⟩,
   getMetrics_serves_cache_iff_fresh.2.2 CONFIG exFirst.ledger exValues 3 rfl rfl⟩

/-- C8 as stated fails: a `uint40` total supply of 20,000,000,001 read on the
first call gives a returned snapshot whose `supply.total` exceeds
`supply.max`. -/
theorem supply_total_le_max_counterexample :
    exOverMax.wellTyped ∧
    (getMetrics CONFIG State.initial 0 (Ledger.healthy exOverMax) 3).result
      = .ok (assemble CONFIG exOverMax 3) ∧
    (assemble CONFIG exOverMax 3).supply.total = 20000000001 ∧
    (assemble CONFIG exOverMax 3).supply.max = 20000000000 ∧
    ¬ ((assemble CONFIG exOverMax 3).supply.total ≤ (assemble CONFIG exOverMax 3).supply.max) := by
  refine ⟨by unfold Values.wellTyped; decide, rfl, rfl, rfl, by decide⟩

/-- C8 amended: every snapshot returned by `getMetrics` in a sequence of calls
from the initial state has `supply.circulation ≤ supply.total`; it has
`supply.total ≤ supply.max` provided every total supply the ledger reported in
that sequence is at most 20,000,000,000. -/
theorem supply_order_in_runs (cfg : Config) (calls : List Call) (o : Outcome)
    (m : MetricsSnapshot) (ho : o ∈ runCalls cfg State.initial calls)
    (hm : o.result = .ok m) :
    m.supply.circulation ≤ m.supply.total ∧
    ((∀ c ∈ calls, ∀ v, promiseAll c.ledger = .ok v → v.totalSupply ≤ 20000000000) →
      m.supply.total ≤ m.supply.max) := by
  refine runCalls_returns
    (fun m => m.supply.circulation ≤ m.supply.total ∧
      ((∀ c ∈ calls, ∀ v, promiseAll c.ledger = .ok v → v.totalSupply ≤ 20000000000) →
        m.supply.total ≤ m.supply.max))
    cfg calls State.initial ?_ ?_ o ho m hm
  · intro m' hm'
    cases hm'
  · intro c hc v hv
    refine ⟨Nat.le_refl _, fun hbound => ?_⟩
    have hle : v.totalSupply ≤ 20000000000 := hbound c hc v hv
    show Number v.totalSupply ≤ 20000000000
    rw [Number_of_lt _ (by omega)]
    exact hle

theorem supply_order_in_runs_witness :
    (getMetrics CONFIG State.initial 0 exFirst.ledger 3
        ∈ runCalls CONFIG State.initial [exFirst] ∧
      (getMetrics CONFIG State.initial 0 exFirst.ledger 3).result = .ok (assemble CONFIG exValues 3)) ∧
    (assemble CONFIG exValues 3).supply.circulation ≤ (assemble CONFIG exValues 3).supply.total ∧
    ((∀ c ∈ [exFirst], ∀ v, promiseAll c.ledger = .ok v → v.totalSupply ≤ 20000000000) →
      (assemble CONFIG exValues 3).supply.total ≤ (assemble CONFIG exValues 3).supply.max) :=
  ⟨⟨List.mem_cons_self _ _, rfl⟩,
   supply_order_in_runs CONFIG [exFirst] (getMetrics CONFIG State.initial 0 exFirst.ledger 3)
     (assemble CONFIG exValues 3) (List.mem_cons_self _ _) rfl⟩

/-- C9 as stated fails: when the `ethReserve()` read returns `2 ^ 53`, which is
greater than `Number.MAX_SAFE_INTEGER`, the refresh does not fail: it returns
and caches a snapshot. -/
theorem value_out_of_range_counterexample :
    exBigReserve.wellTyped ∧ MAX_SAFE_INTEGER < exBigReserve.ethReserve ∧
    (Ledger.healthy exBigReserve).ethReserve = .ok 9007199254740992 ∧
    (getMetrics CONFIG State.initial 0 (Ledger.healthy exBigReserve) 3).result
      = .ok (assemble CONFIG exBigReserve 3) ∧
    (getMetrics CONFIG State.initial 0 (Ledger.healthy exBigReserve) 3).state.metricsCache
      = some (assemble CONFIG exBigReserve 3) := by
  refine ⟨by unfold Values.wellTyped; decide, by decide, rfl, rfl, rfl⟩

/-- C9 amended: reads of the declared widths never make a refresh fail for
their size.  The `uint8` and `uint40` reads are at most
`Number.MAX_SAFE_INTEGER` and the snapshot holds each of them exactly; only
`ethReserve` (a `uint256`) can exceed that bound, and the snapshot holds it as
its decimal string, which denotes the integer read exactly.  So the refresh
succeeds and the snapshot it returns and caches holds no truncated or rounded
value. -/
theorem refresh_holds_exact_values (cfg : Config) (st : State) (now : Int)
    (ledger : Ledger) (stamp : Int) (v : Values)
    (hstale : st.metricsCache = none ∨ 60000 ≤ now - st.cacheTimestamp)
    (hv : promiseAll ledger = .ok v) (hty : v.wellTyped) :
    (v.decimals ≤ MAX_SAFE_INTEGER ∧ v.totalSupply ≤ MAX_SAFE_INTEGER ∧
      v.epochDuration ≤ MAX_SAFE_INTEGER ∧ v.lockDuration ≤ MAX_SAFE_INTEGER ∧
      v.currentEpoch ≤ MAX_SAFE_INTEGER ∧ v.chainId ≤ MAX_SAFE_INTEGER) ∧
    (getMetrics cfg st now ledger stamp).result = .ok (assemble cfg v stamp) ∧
    (getMetrics cfg st now ledger stamp).state.metricsCache = some (assemble cfg v stamp) ∧
    (assemble cfg v stamp).token.decimals = v.decimals ∧
    (assemble cfg v stamp).supply.total = v.totalSupply ∧
    (assemble cfg v stamp).supply.circulation = v.totalSupply ∧
    (assemble cfg v stamp).epoch.current = v.currentEpoch ∧
    (assemble cfg v stamp).epoch.duration = v.epochDuration ∧
    (assemble cfg v stamp).epoch.lockDuration = v.lockDuration ∧
    (assemble cfg v stamp).chain.id = v.chainId ∧
    parseDecimal (assemble cfg v stamp).chain.ethReserve = v.ethReserve := by
  obtain ⟨h1, h2, h3, h4, h5, _, h7⟩ := hty
  rw [getMetrics_of_stale_ok cfg st now ledger stamp v hstale hv]
  refine ⟨?_, rfl, rfl, Number_of_lt _ (by omega), Number_of_lt _ (by omega),
    Number_of_lt _ (by omega), Number_of_lt _ (by omega), Number_of_lt _ (by omega),
    Number_of_lt _ (by omega), Number_of_lt _ (by omega), parseDecimal_bigintToString _⟩
  unfold MAX_SAFE_INTEGER
  omega

theorem refresh_holds_exact_values_witness :
    (State.initial.metricsCache = none ∧
      promiseAll (Ledger.healthy exBigReserve) = .ok exBigReserve ∧ exBigReserve.wellTyped ∧
      MAX_SAFE_INTEGER < exBigReserve.ethReserve) ∧
    (getMetrics CONFIG State.initial 0 (Ledger.healthy exBigReserve) 3).result
      = .ok (assemble CONFIG exBigReserve 3) ∧
    parseDecimal (assemble CONFIG exBigReserve 3).chain.ethReserve = 9007199254740992 :=
  have hty : exBigReserve.wellTyped := by unfold Values.wellTyped; decide
  have h := refresh_holds_exact_values CONFIG State.initial 0 (Ledger.healthy exBigReserve) 3
    exBigReserve (Or.inl rfl) rfl hty
  ⟨⟨rfl, rfl, hty, by decide⟩, h.2.1, h.2.2.2.2.2.2.2.2.2.2⟩

/-- C10 as stated fails: two callers that both enter past the TTL of the cached
entry before either refresh completes issue eighteen reads, two sets of nine,
and receive two different snapshots. -/
theorem single_flight_counterexample :
    (∀ c ∈ exOverlap, 60000 ≤ c.now - exCached.cacheTimestamp) ∧
    (∀ c ∈ exOverlap, c.ledger.anyRejected = false) ∧
    (overlapCalls CONFIG exCached exOverlap).2.2 = allReads ++ allReads ∧
    (overlapCalls CONFIG exCached exOverlap).2.2.length = 18 ∧
    (overlapCalls CONFIG exCached exOverlap).1
      = [.ok (assemble CONFIG exValues 61500), .ok (assemble CONFIG exValues 61600)] ∧
    assemble CONFIG exValues 61500 ≠ assemble CONFIG exValues 61600 := by
  refine ⟨?_, ?_, rfl, rfl, rfl, ?_⟩
  · intro c hc
    simp only [exOverlap, List.mem_cons, List.mem_singleton, List.not_mem_nil, or_false] at hc
    rcases hc with rfl | rfl <;> decide
  · intro c hc
    simp only [exOverlap, List.mem_cons, List.mem_singleton, List.not_mem_nil, or_false] at hc
    rcases hc with rfl | rfl <;> rfl
  · intro h
    have ht := congrArg MetricsSnapshot.timestamp h
    exact absurd ht (by decide)

/-- C10 amended: when `N` calls overlap, each entering while the cache is empty
or its entry is at least 60000 ms old and before any refresh completes, and
the ledger answers every read, each call issues its own nine reads (`9 * N`
reads in all), each caller receives the snapshot assembled from its own reads,
and the cache ends up holding the snapshot and entry time of the caller that
resumed last. -/
theorem overlapping_calls_each_refresh (cfg : Config) (st : State) (calls : List Call)
    (hstale : ∀ c ∈ calls, st.metricsCache = none ∨ 60000 ≤ c.now - st.cacheTimestamp)
    (hhealthy : ∀ c ∈ calls, c.ledger.anyRejected = false) :
    (overlapCalls cfg st calls).2.2 = (calls.map fun _ => allReads).flatten ∧
    (overlapCalls cfg st calls).2.2.length = 9 * calls.length ∧
    (overlapCalls cfg st calls).1
      = (calls.map fun c => (promiseAll c.ledger).map fun v => assemble cfg v c.stamp) ∧
    (∀ r ∈ (overlapCalls cfg st calls).1, ∃ m, r = .ok m) ∧
    (∀ c v, calls.getLast? = some c → promiseAll c.ledger = .ok v →
      (overlapCalls cfg st calls).2.1
        = { metricsCache := some (assemble cfg v c.stamp), cacheTimestamp := c.now }) := by
  have hreads : (calls.map fun c => (getMetricsEnter st c.now).2)
      = calls.map fun _ => allReads :=
    List.map_congr_left fun c hc => by rw [getMetricsEnter_of_stale st c.now (hstale c hc)]
  have hent : (calls.map fun c => ((getMetricsEnter st c.now).1, c))
      = calls.map fun c => (Entered.awaiting c.now, c) :=
    List.map_congr_left fun c hc => by rw [getMetricsEnter_of_stale st c.now (hstale c hc)]
  have hres := resumeAll_awaiting cfg calls st
  have h1 : (overlapCalls cfg st calls).2.2 = (calls.map fun _ => allReads).flatten := by
    simp only [overlapCalls, hreads]
  have h3 : (overlapCalls cfg st calls).1
      = (calls.map fun c => (promiseAll c.ledger).map fun v => assemble cfg v c.stamp) := by
    simp only [overlapCalls, hent]
    exact hres
  refine ⟨h1, ?_, h3, ?_, ?_⟩
  · rw [h1]
    simp [allReads, Nat.mul_comm]
  · intro r hr
    rw [h3, List.mem_map] at hr
    obtain ⟨c, hc, rfl⟩ := hr
    obtain ⟨v, hv, _⟩ := promiseAll_of_not_anyRejected c.ledger (hhealthy c hc)
    exact ⟨assemble cfg v c.stamp, by rw [hv]; rfl⟩
  · intro c v hlast hv
    simp only [overlapCalls, hent]
    exact resumeAll_awaiting_state cfg calls st c v hlast hv

theorem overlapping_calls_each_refresh_witness :
    ((∀ c ∈ exOverlap, exCached.metricsCache = none ∨ 60000 ≤ c.now - exCached.cacheTimestamp) ∧
      (∀ c ∈ exOverlap, c.ledger.anyRejected = false)) ∧
    (overlapCalls CONFIG exCached exOverlap).2.2.length = 9 * 2 ∧
    (overlapCalls CONFIG exCached exOverlap).1
      = (exOverlap.map fun c => (promiseAll c.ledger).map fun v => assemble CONFIG v c.stamp) :=
  have hstale : ∀ c ∈ exOverlap,
      exCached.metricsCache = none ∨ 60000 ≤ c.now - exCached.cacheTimestamp := by
    intro c hc
    simp only [exOverlap, List.mem_cons, List.mem_singleton, List.not_mem_nil, or_false] at hc
    rcases hc with rfl | rfl <;> exact Or.inr (by decide)
  have hhealthy : ∀ c ∈ exOverlap, c.ledger.anyRejected = false := by
    intro c hc
    simp only [exOverlap, List.mem_cons, List.mem_singleton, List.not_mem_nil, or_false] at hc
    rcases hc with rfl | rfl <;> rfl
  have h := overlapping_calls_each_refresh CONFIG exCached exOverlap hstale hhealthy
  ⟨⟨hstale, hhealthy⟩, h.2.1, h.2.2.1⟩

/-! ## The price aggregator and the routes -/

/-- Only an array or an object has an object as element. -/
theorem getIndex_obj_truthy (v : JsValue) (i : Nat) (props : List (String × JsValue))
    (h : v.getIndex i = .ok (.obj props)) : v.truthy = true := by
  cases v with
  | str s =>
    simp only [JsValue.getIndex] at h
    split at h <;> cases h
  | arr items => rfl
  | obj p => rfl
  | _ => simp [JsValue.getIndex] at h

/-- A property read that gives a value other than `undefined` was made on an
object. -/
theorem getProp_ok_obj (v : JsValue) (name : String) (x : JsValue)
    (h : v.getProp name = .ok x) : x = .undefined ∨ ∃ props, v = .obj props := by
  cases v <;> simp [JsValue.getProp] at h ⊢ <;> exact h.symm

/-- A property read that does not throw was not made on `undefined` or `null`. -/
theorem getProp_ok_defined (v : JsValue) (name : String) (x : JsValue)
    (h : v.getProp name = .ok x) : v ≠ .undefined ∧ v ≠ .null := by
  cases v <;> simp [JsValue.getProp] at h ⊢

/-- When `data.data[0].ticker.latest` evaluates, the condition of line 149 is truthy. -/
theorem lbankTest_of_latest (data latest : JsValue) (h : lbankLatest data = .ok latest) :
    ∃ t, lbankTest data = .ok t ∧ t.truthy = true := by
  unfold lbankLatest at h
  unfold lbankTest
  rcases hdd : data.getProp "data" with e | dd
  · simp [hdd, bind, Except.bind] at h
  rcases hfirst : dd.getIndex 0 with e | first
  · simp [hdd, hfirst, bind, Except.bind] at h
  rcases hticker : first.getProp "ticker" with e | ticker
  · simp [hdd, hfirst, hticker, bind, Except.bind] at h
  simp only [hdd, hfirst, hticker, bind, Except.bind] at h
  have hdef := getProp_ok_defined ticker "latest" latest h
  rcases getProp_ok_obj first "ticker" ticker hticker with hu | ⟨props, rfl⟩
  · exact absurd hu hdef.1
  have hddt : dd.truthy = true := getIndex_obj_truthy dd 0 props hfirst
  refine ⟨.obj props, ?_, rfl⟩
  simp [bind, Except.bind, hddt, hfirst]

/-- The first `try` with its `catch`, on an `ok` response whose body parses. -/
theorem lbank_caught_parsed (pf : JsValue → Except JsError JsNumber) (data : JsValue) :
    (tryLBank pf (.fulfilled { ok := true, body := .fulfilled data })).tryCatch
        (fun _e => pure none)
      = { outcome := .fulfilled (match lbankLatest data >>= pf with
            | .ok parsed => some ((JsValue.num parsed).or (.num .zero))
            | .error _ => none)
          events := [.request .lbank, .settled .lbank] } := by
  rcases hl : lbankLatest data with e | latest
  · rcases ht : lbankTest data with e' | t
    · simp [tryLBank, fetch, Response.json, Async.throwing, Async.tryCatch, bind, Async.bind,
        pure, Async.pure, ht, Except.bind]
    · by_cases htt : t.truthy = true
      · simp [tryLBank, fetch, Response.json, Async.throwing, Async.tryCatch, bind, Async.bind,
          pure, Async.pure, ht, hl, htt, Except.bind]
      · simp [tryLBank, fetch, Response.json, Async.throwing, Async.tryCatch, bind, Async.bind,
          pure, Async.pure, ht, hl, htt, Except.bind]
  · obtain ⟨t, ht, htt⟩ := lbankTest_of_latest data latest hl
    rcases hp : pf latest with e | parsed
    · simp [tryLBank, fetch, Response.json, Async.throwing, Async.tryCatch, bind, Async.bind,
        pure, Async.pure, ht, hl, htt, hp, Except.bind]
    · simp [tryLBank, fetch, Response.json, Async.throwing, Async.tryCatch, bind, Async.bind,
        pure, Async.pure, ht, hl, htt, hp, Except.bind]

/-- The second `try` with its `catch`, on an `ok` response whose body parses. -/
theorem coingecko_caught_parsed (data : JsValue) :
    ∃ a, (tryCoinGecko (.fulfilled { ok := true, body := .fulfilled data })).tryCatch
        (fun _e => pure none)
        = { outcome := .fulfilled a, events := [.request .coingecko, .settled .coingecko] } ∧
      a.getD (.num .zero) = (match coingeckoUsd data with
          | .ok usd => usd.or (.num .zero)
          | .error _ => .num .zero) := by
  rcases hf : data.getProp "fanatico" with e | fanatico
  · refine ⟨none, ?_, ?_⟩
    · simp [tryCoinGecko, fetch, Response.json, Async.throwing, Async.tryCatch, bind,
        Async.bind, pure, Async.pure, hf]
    · simp [coingeckoUsd, hf, bind, Except.bind]
  · by_cases hft : fanatico.truthy = true
    · rcases hu : fanatico.getProp "usd" with e | usd
      · refine ⟨none, ?_, ?_⟩
        · simp [tryCoinGecko, coingeckoUsd, fetch, Response.json, Async.throwing,
            Async.tryCatch, bind, Async.bind, pure, Async.pure, hf, hft, hu, Except.bind]
        · simp [coingeckoUsd, hf, hu, bind, Except.bind]
      · refine ⟨some (usd.or (.num .zero)), ?_, ?_⟩
        · simp [tryCoinGecko, coingeckoUsd, fetch, Response.json, Async.throwing,
            Async.tryCatch, bind, Async.bind, pure, Async.pure, hf, hft, hu, Except.bind]
        · simp [coingeckoUsd, hf, hu, bind, Except.bind]
    · refine ⟨none, ?_, ?_⟩
      · simp [tryCoinGecko, fetch, Response.json, Async.throwing, Async.tryCatch, bind,
          Async.bind, pure, Async.pure, hf, hft]
      · have hu : fanatico.getProp "usd" = .ok .undefined ∨ ∃ e, fanatico.getProp "usd" = .error e := by
          cases fanatico <;> simp [JsValue.getProp, JsValue.truthy] at hft ⊢
        rcases hu with hu | ⟨e, hu⟩
        · simp [coingeckoUsd, hf, hu, bind, Except.bind, JsValue.or, JsValue.truthy]
        · simp [coingeckoUsd, hf, hu, bind, Except.bind]

/-- The first `try` with its `catch`: it never throws, it ends exactly when the
attempt on LBank does, and then leaves `lbankField` to be assigned. -/
theorem lbank_caught (pf : JsValue → Except JsError JsNumber) (lb : Settles Response) :
    ((tryLBank pf lb).tryCatch fun _e => pure none).events = (fetch .lbank lb).events ∧
    (attemptSettles lb = false →
      ((tryLBank pf lb).tryCatch fun _e => pure none).outcome = .pending) ∧
    (attemptSettles lb = true →
      ∃ a, ((tryLBank pf lb).tryCatch fun _e => pure none).outcome = .fulfilled a ∧
        a.getD (.num .zero) = lbankField pf lb) := by
  rcases lb with _ | e | ⟨ok, body⟩
  · simp [tryLBank, fetch, Async.tryCatch, bind, Async.bind, attemptSettles]
  · refine ⟨?_, ?_, fun _ => ⟨none, ?_, rfl⟩⟩ <;>
      simp [tryLBank, fetch, Async.tryCatch, bind, Async.bind, pure, Async.pure, attemptSettles]
  · cases ok
    · refine ⟨?_, ?_, fun _ => ⟨none, ?_, rfl⟩⟩ <;>
        simp [tryLBank, fetch, Async.tryCatch, bind, Async.bind, pure, Async.pure,
          attemptSettles]
    · rcases body with _ | e | data
      · simp [tryLBank, fetch, Response.json, Async.tryCatch, bind, Async.bind, attemptSettles]
      · refine ⟨?_, ?_, fun _ => ⟨none, ?_, rfl⟩⟩ <;>
          simp [tryLBank, fetch, Response.json, Async.tryCatch, bind, Async.bind, pure,
            Async.pure, attemptSettles]
      · refine ⟨?_, by simp [attemptSettles], fun _ => ?_⟩
        · rw [lbank_caught_parsed pf data]
          rfl
        · refine ⟨_, by rw [lbank_caught_parsed pf data], ?_⟩
          simp only [lbankField]
          cases lbankLatest data >>= pf <;> rfl

/-- The second `try` with its `catch`, likewise. -/
theorem coingecko_caught (cg : Settles Response) :
    ((tryCoinGecko cg).tryCatch fun _e => pure none).events = (fetch .coingecko cg).events ∧
    (attemptSettles cg = false →
      ((tryCoinGecko cg).tryCatch fun _e => pure none).outcome = .pending) ∧
    (attemptSettles cg = true →
      ∃ a, ((tryCoinGecko cg).tryCatch fun _e => pure none).outcome = .fulfilled a ∧
        a.getD (.num .zero) = coingeckoField cg) := by
  rcases cg with _ | e | ⟨ok, body⟩
  · simp [tryCoinGecko, fetch, Async.tryCatch, bind, Async.bind, attemptSettles]
  · refine ⟨?_, ?_, fun _ => ⟨none, ?_, rfl⟩⟩ <;>
      simp [tryCoinGecko, fetch, Async.tryCatch, bind, Async.bind, pure, Async.pure,
        attemptSettles]
  · cases ok
    · refine ⟨?_, ?_, fun _ => ⟨none, ?_, rfl⟩⟩ <;>
        simp [tryCoinGecko, fetch, Async.tryCatch, bind, Async.bind, pure, Async.pure,
          attemptSettles]
    · rcases body with _ | e | data
      · simp [tryCoinGecko, fetch, Response.json, Async.tryCatch, bind, Async.bind,
          attemptSettles]
      · refine ⟨?_, ?_, fun _ => ⟨none, ?_, rfl⟩⟩ <;>
          simp [tryCoinGecko, fetch, Response.json, Async.tryCatch, bind, Async.bind, pure,
            Async.pure, attemptSettles]
      · obtain ⟨a, ha, hfield⟩ := coingecko_caught_parsed data
        refine ⟨?_, by simp [attemptSettles], fun _ => ⟨a, by rw [ha], ?_⟩⟩
        · rw [ha]; rfl
        · rw [hfield]; rfl

/-- What a whole `getPrices` call does: its events, and how it ends. -/
theorem getPrices_run (pf : JsValue → Except JsError JsNumber) (lb cg : Settles Response)
    (stamp : Int) :
    (getPrices pf lb cg stamp).events = priceEvents lb cg ∧
    (attemptSettles lb = true → attemptSettles cg = true →
      (getPrices pf lb cg stamp).outcome = .fulfilled
        { usd_fco_l1 := coingeckoField cg
          usd_fco_cex_lbank := lbankField pf lb
          usdt_fco_dex_uniswap := .num .zero
          timestamp := stamp }) ∧
    ((attemptSettles lb = false ∨ attemptSettles cg = false) →
      (getPrices pf lb cg stamp).outcome = .pending) := by
  obtain ⟨hle, hlp, hlf⟩ := lbank_caught pf lb
  obtain ⟨hce, hcp, hcf⟩ := coingecko_caught cg
  simp only [getPrices, bind, priceEvents]
  generalize (tryLBank pf lb).tryCatch (fun _e => pure none) = L at hle hlp hlf ⊢
  generalize (tryCoinGecko cg).tryCatch (fun _e => pure none) = C at hce hcp hcf ⊢
  rw [← hle, ← hce]
  cases hl : attemptSettles lb
  · have hout := hlp hl
    simp [Async.bind, hout]
  · obtain ⟨a, hout, ha⟩ := hlf hl
    cases hc : attemptSettles cg
    · have hcout := hcp hc
      simp [Async.bind, hout, hcout]
    · obtain ⟨b, hcout, hb⟩ := hcf hc
      rw [← ha, ← hb]
      cases a <;> cases b <;> simp [Async.bind, hout, hcout, pure, Async.pure]

/-- Each listed way of failing is a way of coming to an end. -/
theorem attemptSettles_of_fails (answer : Settles Response) (h : attemptFails answer) :
    attemptSettles answer = true := by
  rcases h with ⟨e, rfl⟩ | ⟨body, rfl⟩ | ⟨e, rfl⟩ <;> rfl

theorem attemptSettles_of_parsed (data : JsValue) :
    attemptSettles (.fulfilled { ok := true, body := .fulfilled data }) = true := rfl

/-- A call that returns has seen both attempts come to an end, and returns the
two fields as the two answers determine them. -/
theorem getPrices_fulfilled (pf : JsValue → Except JsError JsNumber) (lb cg : Settles Response)
    (stamp : Int) (p : PriceSnapshot) (h : (getPrices pf lb cg stamp).outcome = .fulfilled p) :
    attemptSettles lb = true ∧ attemptSettles cg = true ∧
    p = { usd_fco_l1 := coingeckoField cg
          usd_fco_cex_lbank := lbankField pf lb
          usdt_fco_dex_uniswap := .num .zero
          timestamp := stamp } := by
  obtain ⟨_, hf, hp⟩ := getPrices_run pf lb cg stamp
  cases hl : attemptSettles lb
  · rw [hp (Or.inl hl)] at h; cases h
  · cases hc : attemptSettles cg
    · rw [hp (Or.inr hc)] at h; cases h
    · rw [hf hl hc] at h
      cases h
      exact ⟨rfl, rfl, rfl⟩

/-- The default `|| 0` leaves every number other than `NaN` as it is. -/
theorem or_zero_of_number (q : JsNumber) (h : q ≠ .nan) :
    (JsValue.num q).or (.num .zero) = .num q := by
  cases q with
  | nan => exact absurd rfl h
  | infinity negative => rfl
  | finite value =>
    by_cases hv : value = 0
    · subst hv; simp [JsValue.or, JsValue.truthy, JsNumber.zero]
    · simp [JsValue.or, JsValue.truthy, hv]

theorem lbankField_of_fails (pf : JsValue → Except JsError JsNumber) (lb : Settles Response)
    (h : attemptFails lb) : lbankField pf lb = .num .zero := by
  rcases h with ⟨e, rfl⟩ | ⟨body, rfl⟩ | ⟨e, rfl⟩ <;> rfl

theorem coingeckoField_of_fails (cg : Settles Response)
    (h : attemptFails cg) : coingeckoField cg = .num .zero := by
  rcases h with ⟨e, rfl⟩ | ⟨body, rfl⟩ | ⟨e, rfl⟩ <;> rfl

/-- C11: `getPrices` never raises and neither does the route
`GET /api/info/prices`, whose response never has a status other than 200 (its
500 branch is unreachable); and for every combination of outcomes of the two
sources (the `fetch` rejects, the response is not `ok`, the body does not
parse, the body is any JSON value) `getPrices` returns a snapshot and the
route answers 200 with that snapshot. -/
theorem getPrices_never_raises :
    (∀ (pf : JsValue → Except JsError JsNumber) (lb cg : Settles Response) (stamp : Int)
        (e : JsError),
      (getPrices pf lb cg stamp).outcome ≠ .rejected e ∧
      (pricesRoute pf lb cg stamp).outcome ≠ .rejected e ∧
      (∀ r, (pricesRoute pf lb cg stamp).outcome = .fulfilled r → r.status = 200)) ∧
    (∀ (pf : JsValue → Except JsError JsNumber) (lb cg : Settles Response) (stamp : Int),
      attemptSettles lb = true → attemptSettles cg = true →
      ∃ p, (getPrices pf lb cg stamp).outcome = .fulfilled p ∧
        (pricesRoute pf lb cg stamp).outcome
          = .fulfilled { status := 200, body := .prices p }) := by
  have hroute : ∀ (pf : JsValue → Except JsError JsNumber) (lb cg : Settles Response)
      (stamp : Int),
      ((getPrices pf lb cg stamp).outcome = .pending ∧
        (pricesRoute pf lb cg stamp).outcome = .pending) ∨
      ∃ p, (getPrices pf lb cg stamp).outcome = .fulfilled p ∧
        (pricesRoute pf lb cg stamp).outcome
          = .fulfilled { status := 200, body := .prices p } := by
    intro pf lb cg stamp
    obtain ⟨_, hf, hp⟩ := getPrices_run pf lb cg stamp
    cases hl : attemptSettles lb
    · have := hp (Or.inl hl)
      exact Or.inl ⟨this, by simp [pricesRoute, Async.tryCatch, bind, Async.bind, this]⟩
    · cases hc : attemptSettles cg
      · have := hp (Or.inr hc)
        exact Or.inl ⟨this, by simp [pricesRoute, Async.tryCatch, bind, Async.bind, this]⟩
      · have := hf hl hc
        exact Or.inr ⟨_, this,
          by simp [pricesRoute, Async.tryCatch, bind, Async.bind, this, pure, Async.pure]⟩
  refine ⟨?_, ?_⟩
  · intro pf lb cg stamp e
    rcases hroute pf lb cg stamp with ⟨h1, h2⟩ | ⟨p, h1, h2⟩
    · rw [h1, h2]
      exact ⟨(by intro h; cases h), (by intro h; cases h), (by intro r h; cases h)⟩
    · rw [h1, h2]
      refine ⟨(by intro h; cases h), (by intro h; cases h), ?_⟩
      intro r h
      cases h
      rfl
  · intro pf lb cg stamp hl hc
    rcases hroute pf lb cg stamp with ⟨h1, _⟩ | h
    · rw [(getPrices_run pf lb cg stamp).2.1 hl hc] at h1
      cases h1
    · exact h

theorem getPrices_never_raises_witness :
    (attemptSettles exSourceDown = true ∧ attemptSettles exCoinGeckoUp = true) ∧
    ∃ p, (getPrices exParseFloat exSourceDown exCoinGeckoUp 7).outcome = .fulfilled p ∧
      (pricesRoute exParseFloat exSourceDown exCoinGeckoUp 7).outcome
        = .fulfilled { status := 200, body := .prices p } :=
  ⟨⟨rfl, rfl⟩, getPrices_never_raises.2 exParseFloat exSourceDown exCoinGeckoUp 7 rfl rfl⟩

/-- C12: in every snapshot `getPrices` returns, if the LBank attempt failed
(the `fetch` rejected, the response was not `ok`, the body did not parse, or
the payload lacks `data[0].ticker.latest`) then `usd_fco_cex_lbank` is exactly
`0`, and if the CoinGecko attempt failed in one of these ways (its field being
`fanatico.usd`) then `usd_fco_l1` is exactly `0`.  The builtin `parseFloat` is
only assumed to give `NaN` on `undefined`. -/
theorem failed_source_field_zero (pf : JsValue → Except JsError JsNumber)
    (lb cg : Settles Response) (stamp : Int) (p : PriceSnapshot)
    (hpf : pf .undefined = .ok .nan)
    (hret : (getPrices pf lb cg stamp).outcome = .fulfilled p) :
    ((attemptFails lb ∨ payloadMissing lbankLatest lb) →
      p.usd_fco_cex_lbank = .num .zero) ∧
    ((attemptFails cg ∨ payloadMissing coingeckoUsd cg) →
      p.usd_fco_l1 = .num .zero) := by
  obtain ⟨_, _, rfl⟩ := getPrices_fulfilled pf lb cg stamp p hret
  refine ⟨?_, ?_⟩
  · rintro (h | ⟨data, rfl, h | ⟨e, h⟩⟩)
    · exact lbankField_of_fails pf lb h
    · simp [lbankField, h, bind, Except.bind, hpf, JsValue.or, JsValue.truthy]
    · simp [lbankField, h, bind, Except.bind]
  · rintro (h | ⟨data, rfl, h | ⟨e, h⟩⟩)
    · exact coingeckoField_of_fails cg h
    · simp [coingeckoField, h, JsValue.or, JsValue.truthy]
    · simp [coingeckoField, h]

theorem failed_source_field_zero_witness :
    (exParseFloat .undefined = .ok .nan ∧
      (getPrices exParseFloat exSourceDown
        (.fulfilled { ok := true, body := .fulfilled exLBankBody }) 7).outcome
        = .fulfilled exNoPrices ∧
      attemptFails exSourceDown ∧
      payloadMissing coingeckoUsd (.fulfilled { ok := true, body := .fulfilled exLBankBody })) ∧
    exNoPrices.usd_fco_cex_lbank = .num .zero ∧ exNoPrices.usd_fco_l1 = .num .zero :=
  have hf : attemptFails exSourceDown := Or.inl ⟨exError, rfl⟩
  have hm : payloadMissing coingeckoUsd
      (.fulfilled { ok := true, body := .fulfilled exLBankBody }) :=
    ⟨exLBankBody, rfl, Or.inr ⟨_, rfl⟩⟩
  have h := failed_source_field_zero exParseFloat exSourceDown
    (.fulfilled { ok := true, body := .fulfilled exLBankBody }) 7 exNoPrices rfl rfl
  ⟨⟨rfl, rfl, hf, hm⟩, h.1 (Or.inl hf), h.2 (Or.inr hm)⟩

/-- C13: each price field depends only on the outcome of its own source.  Two
calls that agree on the LBank answer return the same `usd_fco_cex_lbank`
whatever CoinGecko does, two calls that agree on the CoinGecko answer return
the same `usd_fco_l1` whatever LBank does; and when one source fails while the
other succeeds with the price `q`, the failed field is `0` and the other
is `q`. -/
theorem price_fields_independent (pf : JsValue → Except JsError JsNumber) :
    (∀ (lb cg cg2 : Settles Response) (stamp stamp2 : Int) (p p2 : PriceSnapshot),
      (getPrices pf lb cg stamp).outcome = .fulfilled p →
      (getPrices pf lb cg2 stamp2).outcome = .fulfilled p2 →
      p.usd_fco_cex_lbank = p2.usd_fco_cex_lbank) ∧
    (∀ (lb lb2 cg : Settles Response) (stamp stamp2 : Int) (p p2 : PriceSnapshot),
      (getPrices pf lb cg stamp).outcome = .fulfilled p →
      (getPrices pf lb2 cg stamp2).outcome = .fulfilled p2 →
      p.usd_fco_l1 = p2.usd_fco_l1) ∧
    (∀ (lb : Settles Response) (data : JsValue) (q : JsNumber) (stamp : Int),
      attemptFails lb → coingeckoUsd data = .ok (.num q) → q ≠ .nan →
      (getPrices pf lb (.fulfilled { ok := true, body := .fulfilled data }) stamp).outcome
        = .fulfilled { usd_fco_l1 := .num q, usd_fco_cex_lbank := .num .zero,
                       usdt_fco_dex_uniswap := .num .zero, timestamp := stamp }) ∧
    (∀ (cg : Settles Response) (data latest : JsValue) (q : JsNumber) (stamp : Int),
      attemptFails cg → lbankLatest data = .ok latest → pf latest = .ok q → q ≠ .nan →
      (getPrices pf (.fulfilled { ok := true, body := .fulfilled data }) cg stamp).outcome
        = .fulfilled { usd_fco_l1 := .num .zero, usd_fco_cex_lbank := .num q,
                       usdt_fco_dex_uniswap := .num .zero, timestamp := stamp }) := by
  refine ⟨?_, ?_, ?_, ?_⟩
  · intro lb cg cg2 stamp stamp2 p p2 h h2
    obtain ⟨_, _, rfl⟩ := getPrices_fulfilled pf lb cg stamp p h
    obtain ⟨_, _, rfl⟩ := getPrices_fulfilled pf lb cg2 stamp2 p2 h2
    rfl
  · intro lb lb2 cg stamp stamp2 p p2 h h2
    obtain ⟨_, _, rfl⟩ := getPrices_fulfilled pf lb cg stamp p h
    obtain ⟨_, _, rfl⟩ := getPrices_fulfilled pf lb2 cg stamp2 p2 h2
    rfl
  · intro lb data q stamp hl hu hq
    rw [(getPrices_run pf lb _ stamp).2.1 (attemptSettles_of_fails lb hl)
      (attemptSettles_of_parsed data), lbankField_of_fails pf lb hl]
    simp [coingeckoField, hu, or_zero_of_number q hq]
  · intro cg data latest q stamp hc hl hp hq
    rw [(getPrices_run pf _ cg stamp).2.1 (attemptSettles_of_parsed data)
      (attemptSettles_of_fails cg hc), coingeckoField_of_fails cg hc]
    simp [lbankField, hl, hp, bind, Except.bind, or_zero_of_number q hq]

theorem price_fields_independent_witness :
    (attemptFails exSourceDown ∧ coingeckoUsd exCoinGeckoBody = .ok (.num (.finite 3)) ∧
      JsNumber.finite 3 ≠ .nan) ∧
    (getPrices exParseFloat exSourceDown exCoinGeckoUp 7).outcome
      = .fulfilled { usd_fco_l1 := .num (.finite 3), usd_fco_cex_lbank := .num .zero,
                     usdt_fco_dex_uniswap := .num .zero, timestamp := 7 } :=
  have hf : attemptFails exSourceDown := Or.inl ⟨exError, rfl⟩
  ⟨⟨hf, rfl, by decide⟩,
   (price_fields_independent exParseFloat).2.2.1 exSourceDown exCoinGeckoBody (.finite 3) 7
     hf rfl (by decide)⟩

/-- The LBank field of every returned snapshot is a number other than `NaN`,
whatever the payload: line 150 passes it through `parseFloat(...) || 0`. -/
theorem lbank_price_is_number (pf : JsValue → Except JsError JsNumber)
    (lb cg : Settles Response) (stamp : Int) (p : PriceSnapshot)
    (h : (getPrices pf lb cg stamp).outcome = .fulfilled p) :
    p.usd_fco_cex_lbank.isNumber ∧ p.usdt_fco_dex_uniswap.isNumber := by
  obtain ⟨_, _, rfl⟩ := getPrices_fulfilled pf lb cg stamp p h
  have hzero : (JsValue.num JsNumber.zero).isNumber := by
    simp [JsValue.isNumber, JsNumber.zero]
  refine ⟨?_, hzero⟩
  show (lbankField pf lb).isNumber
  unfold lbankField
  split
  · split
    · rename_i parsed _
      by_cases hp : parsed = .nan
      · subst hp
        simpa [JsValue.or, JsValue.truthy] using hzero
      · rw [or_zero_of_number parsed hp]
        exact hp
    · exact hzero
  · exact hzero

/-- C14, the code at the failing input: when CoinGecko answers 200 with
`fanatico.usd` being the text `"abc"`, `getPrices` returns a snapshot whose
`usd_fco_l1` is that string, not a number; the same text as LBank's `latest`
goes through `parseFloat(...) || 0` and leaves the number `0`. -/
theorem coingecko_text_price_passes_through :
    (getPrices exParseFloat exSourceDown
        (.fulfilled { ok := true, body := .fulfilled exCoinGeckoText }) 7).outcome
      = .fulfilled { usd_fco_l1 := .str "abc", usd_fco_cex_lbank := .num .zero,
                     usdt_fco_dex_uniswap := .num .zero, timestamp := 7 } ∧
    ¬ (JsValue.str "abc").isNumber ∧
    (getPrices exParseFloat (.fulfilled { ok := true, body := .fulfilled exLBankText })
        exSourceDown 7).outcome = .fulfilled exNoPrices :=
  ⟨rfl, fun h => h, rfl⟩

/-- C15 as stated fails: when both sources answer, the request to CoinGecko is
sent after the LBank `fetch` has settled; and when LBank never answers, no
request to CoinGecko is ever sent and the call never returns. -/
theorem price_requests_concurrent_counterexample :
    (getPrices exParseFloat exLBankUp exCoinGeckoUp 7).events
      = [.request .lbank, .settled .lbank, .request .coingecko, .settled .coingecko] ∧
    (getPrices exParseFloat .pending exCoinGeckoUp 7).events = [.request .lbank] ∧
    Event.request .coingecko ∉ (getPrices exParseFloat .pending exCoinGeckoUp 7).events ∧
    (getPrices exParseFloat .pending exCoinGeckoUp 7).outcome = .pending :=
  ⟨rfl, rfl, by decide, rfl⟩

/-- C15 amended: in every `getPrices` call the two requests are made one after
the other.  When the LBank attempt comes to an end, the events are the LBank
request, its settling, and then the CoinGecko request (with its settling, if
any); no attempt has a timeout: when the LBank attempt never ends, no request
is made to CoinGecko and the call never returns, and when the CoinGecko
attempt never ends the call never returns either. -/
theorem price_requests_sequential (pf : JsValue → Except JsError JsNumber)
    (lb cg : Settles Response) (stamp : Int) :
    (attemptSettles lb = true →
      (getPrices pf lb cg stamp).events
        = [.request .lbank, .settled .lbank] ++ (fetch .coingecko cg).events) ∧
    (attemptSettles lb = false →
      Event.request .coingecko ∉ (getPrices pf lb cg stamp).events ∧
      (getPrices pf lb cg stamp).outcome = .pending) ∧
    (attemptSettles cg = false → (getPrices pf lb cg stamp).outcome = .pending) := by
  obtain ⟨he, _, hp⟩ := getPrices_run pf lb cg stamp
  refine ⟨fun hl => ?_, fun hl => ⟨?_, hp (Or.inl hl)⟩, fun hc => hp (Or.inr hc)⟩
  · rw [he]
    rcases lb with _ | e | r
    · cases hl
    · simp [priceEvents, fetch, hl]
    · simp [priceEvents, fetch, hl]
  · rw [he]
    rcases lb with _ | e | r <;> simp [priceEvents, fetch, hl]

theorem price_requests_sequential_witness :
    attemptSettles exLBankUp = true ∧
    (getPrices exParseFloat exLBankUp exCoinGeckoUp 7).events
      = [.request .lbank, .settled .lbank] ++ (fetch .coingecko exCoinGeckoUp).events :=
  ⟨rfl, (price_requests_sequential exParseFloat exLBankUp exCoinGeckoUp 7).1 rfl⟩

/-- C16: in every `getPrices` call exactly one request is made to LBank and at
most one to CoinGecko, and exactly one to CoinGecko whatever way the LBank
attempt ended: no attempt is retried within the call. -/
theorem one_request_per_source (pf : JsValue → Except JsError JsNumber)
    (lb cg : Settles Response) (stamp : Int) :
    (getPrices pf lb cg stamp).events.count (.request .lbank) = 1 ∧
    (getPrices pf lb cg stamp).events.count (.request .coingecko) ≤ 1 ∧
    (attemptSettles lb = true →
      (getPrices pf lb cg stamp).events.count (.request .coingecko) = 1) := by
  obtain ⟨he, _, _⟩ := getPrices_run pf lb cg stamp
  rw [he]
  cases hl : attemptSettles lb <;> rcases lb with _ | e | r <;> rcases cg with _ | e2 | r2 <;>
    simp [priceEvents, fetch, hl]

theorem one_request_per_source_witness :
    attemptSettles exSourceDown = true ∧
    (getPrices exParseFloat exSourceDown exSourceDown 7).events.count (.request .coingecko) = 1 :=
  ⟨rfl, (one_request_per_source exParseFloat exSourceDown exSourceDown 7).2.2 rfl⟩

theorem serveMetrics_of_ok (cfg : Config) (route : MetricsRoute) (st : State) (now : Int)
    (ledger : Ledger) (stamp : Int) (s : MetricsSnapshot)
    (h : (getMetrics cfg st now ledger stamp).result = .ok s) :
    (serveMetrics cfg route st now ledger stamp).response
      = { status := 200, body := route.respond cfg s } := by
  simp [serveMetrics, h]

theorem serveMetrics_of_error (cfg : Config) (route : MetricsRoute) (st : State) (now : Int)
    (ledger : Ledger) (stamp : Int) (e : JsError)
    (h : (getMetrics cfg st now ledger stamp).result = .error e) :
    (serveMetrics cfg route st now ledger stamp).response = errorEnvelope e := by
  simp [serveMetrics, h]

/-- C17: for every snapshot `s` that `getMetrics` returns, each metric route
answers 200 with the projected field unchanged: total-supply with
`totalSupply: s.supply.total`, total-circulation with
`circulation: s.supply.circulation`, max-supply with
`maxSupply: s.supply.max`, total-mint with `totalMint: s.supply.total`,
total-burn with `totalBurn: s.supply.burned`, and `/api/info/stat/metrics`
with `s` itself. -/
theorem metric_routes_project (cfg : Config) (st : State) (now : Int) (ledger : Ledger)
    (stamp : Int) (s : MetricsSnapshot)
    (h : (getMetrics cfg st now ledger stamp).result = .ok s) :
    (serveMetrics cfg .totalSupply st now ledger stamp).response
      = { status := 200, body := .object [("totalSupply", .num (.ofNat s.supply.total))] } ∧
    (serveMetrics cfg .totalCirculation st now ledger stamp).response
      = { status := 200,
          body := .object [("circulation", .num (.ofNat s.supply.circulation))] } ∧
    (serveMetrics cfg .maxSupply st now ledger stamp).response
      = { status := 200, body := .object [("maxSupply", .num (.ofNat s.supply.max))] } ∧
    (serveMetrics cfg .totalMint st now ledger stamp).response
      = { status := 200, body := .object [("totalMint", .num (.ofNat s.supply.total))] } ∧
    (serveMetrics cfg .totalBurn st now ledger stamp).response
      = { status := 200, body := .object [("totalBurn", .num (.ofNat s.supply.burned))] } ∧
    (serveMetrics cfg .metrics st now ledger stamp).response
      = { status := 200, body := .metrics s } := by
  refine ⟨?_, ?_, ?_, ?_, ?_, ?_⟩ <;> rw [serveMetrics_of_ok cfg _ st now ledger stamp s h] <;> rfl

theorem metric_routes_project_witness :
    (getMetrics CONFIG exCached 30000 exDown 30000).result = .ok exSnapshot ∧
    (serveMetrics CONFIG .totalSupply exCached 30000 exDown 30000).response
      = { status := 200, body := .object [("totalSupply", .num (.ofNat 1000000))] } ∧
    (serveMetrics CONFIG .metrics exCached 30000 exDown 30000).response
      = { status := 200, body := .metrics exSnapshot } :=
  have h := metric_routes_project CONFIG exCached 30000 exDown 30000 exSnapshot rfl
  ⟨rfl, h.1, h.2.2.2.2.2⟩

/-- C18 as stated fails: the keys of the object `GET /api/info/contract`
answers with are `fco`, `authority`, `chainId`, `rpc`, not `tokenAddress`,
`authorityAddress`, `chainId`, `rpcEndpoint`. -/
theorem contract_route_keys_counterexample :
    (getMetrics CONFIG exCached 30000 exDown 30000).result = .ok exSnapshot ∧
    (serveMetrics CONFIG .contract exCached 30000 exDown 30000).response.body.keys
      = ["fco", "authority", "chainId", "rpc"] ∧
    (serveMetrics CONFIG .contract exCached 30000 exDown 30000).response.body.keys
      ≠ ["tokenAddress", "authorityAddress", "chainId", "rpcEndpoint"] := by
  refine ⟨rfl, rfl, ?_⟩
  have h : (serveMetrics CONFIG .contract exCached 30000 exDown 30000).response.body.keys
      = ["fco", "authority", "chainId", "rpc"] := rfl
  rw [h]
  decide

/-- C18 amended: when `getMetrics` succeeds, `GET /api/info/contract` answers
200 with an object whose keys are exactly `fco`, `authority`, `chainId` and
`rpc`, holding the configured token address, the configured authority address,
the chain id of the snapshot and the configured RPC URL. -/
theorem contract_route_body (cfg : Config) (st : State) (now : Int) (ledger : Ledger)
    (stamp : Int) (s : MetricsSnapshot)
    (h : (getMetrics cfg st now ledger stamp).result = .ok s) :
    (serveMetrics cfg .contract st now ledger stamp).response
      = { status := 200,
          body := .object [("fco", .str cfg.FCO_ADDRESS),
                           ("authority", .str cfg.AUTHORITY_ADDRESS),
                           ("chainId", .num (.ofNat s.chain.id)),
                           ("rpc", .str cfg.RPC_URL)] } ∧
    (serveMetrics cfg .contract st now ledger stamp).response.body.keys
      = ["fco", "authority", "chainId", "rpc"] := by
  rw [serveMetrics_of_ok cfg _ st now ledger stamp s h]
  exact ⟨rfl, rfl⟩

theorem contract_route_body_witness :
    (getMetrics CONFIG exCached 30000 exDown 30000).result = .ok exSnapshot ∧
    (serveMetrics CONFIG .contract exCached 30000 exDown 30000).response
      = { status := 200,
          body := .object [("fco", .str "0xd6F8Ff0036D8B2088107902102f9415330868109"),
                           ("authority", .str "0xed4E6CA376FaA5c1EB37fF8Fc053875A6F327EB2"),
                           ("chainId", .num (.ofNat 1234)),
                           ("rpc", .str "http://paratime.fanati.co:8545")] } :=
  ⟨rfl, (contract_route_body CONFIG exCached 30000 exDown 30000 exSnapshot rfl).1⟩

/-- C19 as stated fails: with a snapshot cached since 1000, a call at 61000
whose `totalSupply()` read rejects gets status 500 from every one of the seven
routes although a prior snapshot exists; the body holds the message of the
error, `could not detect network`, not a kind. -/
theorem metrics_route_500_counterexample :
    exCached.metricsCache = some exSnapshot ∧
    (∀ route : MetricsRoute,
      (serveMetrics CONFIG route exCached 61000 exDown 61000).response.status = 500) ∧
    (serveMetrics CONFIG .metrics exCached 61000 exDown 61000).response.body.keys = ["error"] ∧
    (serveMetrics CONFIG .metrics exCached 61000 exDown 61000).response
      = { status := 500, body := .object [("error", .str "could not detect network")] } ∧
    exError.code = "NETWORK_ERROR" :=
  ⟨rfl, fun route => by cases route <;> rfl, rfl, rfl, rfl⟩

/-- C19 amended: on each of the seven routes that call `getMetrics`, the status
is 500 if and only if the call went on to a refresh (the cache was empty or
its entry at least 60000 ms old) and a ledger read rejected, whether or not a
snapshot was cached before; the body is then the object with the single key
`error` holding the message of the rejected read's error.  In every other case
the status is 200 and the body is the route's projection of the snapshot
`getMetrics` returned. -/
theorem metrics_route_status (cfg : Config) (route : MetricsRoute) (st : State) (now : Int)
    (ledger : Ledger) (stamp : Int) :
    ((serveMetrics cfg route st now ledger stamp).response.status = 500 ↔
      ((st.metricsCache = none ∨ 60000 ≤ now - st.cacheTimestamp) ∧
        ledger.anyRejected = true)) ∧
    ((serveMetrics cfg route st now ledger stamp).response.status = 500 →
      ∃ e, e ∈ ledger.rejections ∧
        (getMetrics cfg st now ledger stamp).result = .error e ∧
        (serveMetrics cfg route st now ledger stamp).response
          = { status := 500, body := .object [("error", .str e.message)] }) ∧
    ((serveMetrics cfg route st now ledger stamp).response.status ≠ 500 →
      ∃ s, (getMetrics cfg st now ledger stamp).result = .ok s ∧
        (serveMetrics cfg route st now ledger stamp).response
          = { status := 200, body := route.respond cfg s }) := by
  rcases getMetrics_cases cfg st now ledger stamp with
    ⟨cached, hc, hf, hg⟩ | ⟨v, hs, hv, hg⟩ | ⟨e, hs, he, hg⟩
  · have hr : (getMetrics cfg st now ledger stamp).result = .ok cached := by rw [hg]
    rw [serveMetrics_of_ok cfg route st now ledger stamp cached hr]
    refine ⟨⟨(by intro h; simp at h), ?_⟩, (by intro h; simp at h), fun _ => ⟨cached, hr, rfl⟩⟩
    rintro ⟨h | h, _⟩
    · rw [hc] at h; cases h
    · omega
  · have hr : (getMetrics cfg st now ledger stamp).result = .ok (assemble cfg v stamp) := by
      rw [hg]
    rw [serveMetrics_of_ok cfg route st now ledger stamp _ hr]
    refine ⟨⟨(by intro h; simp at h), ?_⟩, (by intro h; simp at h), fun _ => ⟨_, hr, rfl⟩⟩
    rintro ⟨_, h⟩
    rw [not_anyRejected_of_promiseAll ledger v hv] at h
    cases h
  · have hr : (getMetrics cfg st now ledger stamp).result = .error e := by rw [hg]
    rw [serveMetrics_of_error cfg route st now ledger stamp e hr]
    have hrej : ledger.anyRejected = true := by
      cases h : ledger.anyRejected
      · obtain ⟨v, hv, _⟩ := promiseAll_of_not_anyRejected ledger h
        rw [hv] at he; cases he
      · rfl
    obtain ⟨e2, he2, hmem⟩ := promiseAll_of_anyRejected ledger hrej
    have hee : e2 = e := by rw [he2] at he; cases he; rfl
    subst hee
    exact ⟨⟨fun _ => ⟨hs, hrej⟩, fun _ => rfl⟩, fun _ => ⟨e2, hmem, hr, rfl⟩,
      fun h => absurd rfl h⟩

theorem metrics_route_status_witness :
    (serveMetrics CONFIG .totalSupply exCached 61000 exDown 61000).response.status = 500 ∧
    ∃ e, e ∈ exDown.rejections ∧
      (getMetrics CONFIG exCached 61000 exDown 61000).result = .error e ∧
      (serveMetrics CONFIG .totalSupply exCached 61000 exDown 61000).response
        = { status := 500, body := .object [("error", .str e.message)] } :=
  ⟨rfl, (metrics_route_status CONFIG .totalSupply exCached 61000 exDown 61000).2.1 rfl⟩

/-- C20: whatever the ledger reads return, the snapshot assembled has
`supply.max = 20000000000` and `supply.burned = 0`, and so has every snapshot
returned by `getMetrics` in a sequence of calls from the initial state. -/
theorem supply_max_and_burned_constant (cfg : Config) :
    (∀ (v : Values) (stamp : Int),
      (assemble cfg v stamp).supply.max = 20000000000 ∧
      (assemble cfg v stamp).supply.burned = 0) ∧
    (∀ (calls : List Call) (o : Outcome) (m : MetricsSnapshot),
      o ∈ runCalls cfg State.initial calls → o.result = .ok m →
      m.supply.max = 20000000000 ∧ m.supply.burned = 0) := by
  refine ⟨fun v stamp => ⟨rfl, rfl⟩, ?_⟩
  intro calls o m ho hm
  refine runCalls_returns (fun m => m.supply.max = 20000000000 ∧ m.supply.burned = 0)
    cfg calls State.initial ?_ ?_ o ho m hm
  · intro m2 h2
    cases h2
  · intro c _ v _
    exact ⟨rfl, rfl⟩

theorem supply_max_and_burned_constant_witness :
    (getMetrics CONFIG State.initial 0 (Ledger.healthy exOverMax) 3
        ∈ runCalls CONFIG State.initial [⟨0, Ledger.healthy exOverMax, 3⟩] ∧
      (getMetrics CONFIG State.initial 0 (Ledger.healthy exOverMax) 3).result
        = .ok (assemble CONFIG exOverMax 3)) ∧
    (assemble CONFIG exOverMax 3).supply.max = 20000000000 ∧
    (assemble CONFIG exOverMax 3).supply.burned = 0 :=
  ⟨⟨List.mem_cons_self _ _, rfl⟩,
   (supply_max_and_burned_constant CONFIG).2 [⟨0, Ledger.healthy exOverMax, 3⟩]
     (getMetrics CONFIG State.initial 0 (Ledger.healthy exOverMax) 3)
     (assemble CONFIG exOverMax 3) (List.mem_cons_self _ _) rfl⟩

/-! ## Timestamps, the liveness route and the life of the cache -/

/-- A healthy ledger fulfils `Promise.all` with the nine values it reports. -/
theorem promiseAll_healthy (v : Values) : promiseAll (Ledger.healthy v) = .ok v := rfl

/-- C21 as stated fails: a first call entered at clock value 0 whose snapshot
is assembled at instant 3 leaves `cacheTimestamp = 0` while the snapshot's own
`timestamp` is 3. -/
theorem cache_timestamp_counterexample :
    (getMetrics CONFIG State.initial 0 (Ledger.healthy exValues) 3).result
      = .ok (assemble CONFIG exValues 3) ∧
    (getMetrics CONFIG State.initial 0 (Ledger.healthy exValues) 3).state.cacheTimestamp = 0 ∧
    (assemble CONFIG exValues 3).timestamp = 3 ∧
    (getMetrics CONFIG State.initial 0 (Ledger.healthy exValues) 3).state.cacheTimestamp
      ≠ (assemble CONFIG exValues 3).timestamp := by
  refine ⟨rfl, rfl, rfl, ?_⟩
  show (0 : Int) ≠ 3
  decide

/-- C21 amended: after every successful refresh `cacheTimestamp` is the clock
value read on entry to the call, before the reads are issued, while the
`timestamp` of the snapshot is the second clock reading, taken when the
snapshot is assembled after the reads complete; the two are the same instant
exactly when the two readings are equal. -/
theorem cache_timestamp_is_entry_clock (cfg : Config) (st : State) (now : Int)
    (ledger : Ledger) (stamp : Int) (v : Values)
    (hstale : st.metricsCache = none ∨ 60000 ≤ now - st.cacheTimestamp)
    (hv : promiseAll ledger = .ok v) :
    (getMetrics cfg st now ledger stamp).state.cacheTimestamp = now ∧
    ∃ m, (getMetrics cfg st now ledger stamp).result = .ok m ∧
      (getMetrics cfg st now ledger stamp).state.metricsCache = some m ∧
      m.timestamp = stamp ∧
      ((getMetrics cfg st now ledger stamp).state.cacheTimestamp = m.timestamp ↔ now = stamp) := by
  rw [getMetrics_of_stale_ok cfg st now ledger stamp v hstale hv]
  exact ⟨rfl, assemble cfg v stamp, rfl, rfl, rfl, Iff.rfl⟩

theorem cache_timestamp_is_entry_clock_witness :
    (State.initial.metricsCache = none ∧ promiseAll (Ledger.healthy exValues) = .ok exValues) ∧
    (getMetrics CONFIG State.initial 0 (Ledger.healthy exValues) 3).state.cacheTimestamp = 0 ∧
    ∃ m, (getMetrics CONFIG State.initial 0 (Ledger.healthy exValues) 3).result = .ok m ∧
      (getMetrics CONFIG State.initial 0 (Ledger.healthy exValues) 3).state.metricsCache
        = some m ∧
      m.timestamp = 3 ∧
      ((getMetrics CONFIG State.initial 0 (Ledger.healthy exValues) 3).state.cacheTimestamp
        = m.timestamp ↔ (0 : Int) = 3) :=
  ⟨⟨rfl, rfl⟩,
   cache_timestamp_is_entry_clock CONFIG State.initial 0 (Ledger.healthy exValues) 3 exValues
     (Or.inl rfl) rfl⟩

/-- C22: for every state of the service `GET /health` answers 200 with the
object of keys `status` (the text `ok`) and `timestamp`, issues no ledger read
and no request to a price source, and leaves `metricsCache` and
`cacheTimestamp` unchanged. -/
theorem health_route_touches_nothing (toISOString : Int → String) (st : State) (stamp : Int) :
    (healthRoute toISOString st stamp).response
      = { status := 200
          body := .object [("status", .str "ok"), ("timestamp", .str (toISOString stamp))] } ∧
    (healthRoute toISOString st stamp).response.body.keys = ["status", "timestamp"] ∧
    (healthRoute toISOString st stamp).reads = [] ∧
    (healthRoute toISOString st stamp).events = [] ∧
    (healthRoute toISOString st stamp).state.metricsCache = st.metricsCache ∧
    (healthRoute toISOString st stamp).state.cacheTimestamp = st.cacheTimestamp :=
  ⟨rfl, rfl, rfl, rfl, rfl, rfl⟩

/-- C23: in the initial state the first `getMetrics` call goes on to the reads
for every clock value `now`, also below 60000: it issues the nine reads, and
what it returns is the snapshot assembled from them, or their error; never a
cached value. -/
theorem first_call_refreshes (cfg : Config) (now : Int) (ledger : Ledger) (stamp : Int) :
    getMetricsEnter State.initial now = (.awaiting now, allReads) ∧
    (getMetrics cfg State.initial now ledger stamp).reads = allReads ∧
    (getMetrics cfg State.initial now ledger stamp).result
      = (promiseAll ledger).map fun v => assemble cfg v stamp := by
  refine ⟨rfl, ?_, ?_⟩
  · rcases hp : promiseAll ledger with e | v
    · rw [getMetrics_of_stale_error cfg _ now ledger stamp e (Or.inl rfl) hp]
    · rw [getMetrics_of_stale_ok cfg _ now ledger stamp v (Or.inl rfl) hp]
  · rcases hp : promiseAll ledger with e | v
    · rw [getMetrics_of_stale_error cfg _ now ledger stamp e (Or.inl rfl) hp]; rfl
    · rw [getMetrics_of_stale_ok cfg _ now ledger stamp v (Or.inl rfl) hp]; rfl

/-- C24: when the ledger reads return unsigned integers of the widths declared
in the ABIs, every snapshot returned in a sequence of calls from the initial
state has non-negative `epoch.current`, `epoch.duration`,
`epoch.lockDuration`, `token.decimals` and `chain.id`; they are moreover below
`2 ^ 40` (`2 ^ 8` for `decimals`), the conversion being exact. -/
theorem snapshot_fields_in_range (cfg : Config) (calls : List Call) (o : Outcome)
    (m : MetricsSnapshot)
    (hty : ∀ c ∈ calls, ∀ v, promiseAll c.ledger = .ok v → v.wellTyped)
    (ho : o ∈ runCalls cfg State.initial calls) (hm : o.result = .ok m) :
    (0 ≤ m.epoch.current ∧ 0 ≤ m.epoch.duration ∧ 0 ≤ m.epoch.lockDuration ∧
      0 ≤ m.token.decimals ∧ 0 ≤ m.chain.id) ∧
    (m.epoch.current < 2 ^ 40 ∧ m.epoch.duration < 2 ^ 40 ∧ m.epoch.lockDuration < 2 ^ 40 ∧
      m.token.decimals < 2 ^ 8 ∧ m.chain.id < 2 ^ 40) := by
  refine ⟨⟨Nat.zero_le _, Nat.zero_le _, Nat.zero_le _, Nat.zero_le _, Nat.zero_le _⟩, ?_⟩
  refine runCalls_returns
    (fun m => m.epoch.current < 2 ^ 40 ∧ m.epoch.duration < 2 ^ 40 ∧
      m.epoch.lockDuration < 2 ^ 40 ∧ m.token.decimals < 2 ^ 8 ∧ m.chain.id < 2 ^ 40)
    cfg calls State.initial ?_ ?_ o ho m hm
  · intro m2 h2
    cases h2
  · intro c hc v hv
    obtain ⟨h1, _, h3, h4, h5, _, h7⟩ := hty c hc v hv
    simp only [assemble]
    rw [Number_of_lt _ (by omega), Number_of_lt _ (by omega), Number_of_lt _ (by omega),
      Number_of_lt _ (by omega), Number_of_lt _ (by omega)]
    exact ⟨h5, h3, h4, h1, h7⟩

theorem snapshot_fields_in_range_witness :
    ((∀ c ∈ [exFirst], ∀ v, promiseAll c.ledger = .ok v → v.wellTyped) ∧
      getMetrics CONFIG State.initial 0 exFirst.ledger 3
        ∈ runCalls CONFIG State.initial [exFirst] ∧
      (getMetrics CONFIG State.initial 0 exFirst.ledger 3).result
        = .ok (assemble CONFIG exValues 3)) ∧
    (assemble CONFIG exValues 3).epoch.current < 2 ^ 40 ∧
    (assemble CONFIG exValues 3).token.decimals < 2 ^ 8 :=
  have hty : ∀ c ∈ [exFirst], ∀ v, promiseAll c.ledger = .ok v → v.wellTyped := by
    intro c hc v hv
    simp only [List.mem_singleton] at hc
    subst hc
    have : v = exValues := by
      have h2 : promiseAll exFirst.ledger = .ok exValues := rfl
      rw [h2] at hv
      cases hv
      rfl
    subst this
    unfold Values.wellTyped
    decide
  have h := snapshot_fields_in_range CONFIG [exFirst]
    (getMetrics CONFIG State.initial 0 exFirst.ledger 3) (assemble CONFIG exValues 3) hty
    (List.mem_cons_self _ _) rfl
  ⟨⟨hty, List.mem_cons_self _ _, rfl⟩, h.2.1, h.2.2.2.2.1⟩

/-- C25: a successful refresh on the read results `v` (each read returning the
field of `v` named after it) returns and caches the snapshot with
`token = (v.name, v.symbol, v.decimals, FCO_ADDRESS)`,
`supply.total = v.totalSupply`,
`epoch = (v.currentEpoch, v.epochDuration, v.lockDuration)` and
`chain = (v.chainId, RPC_URL, decimal string of v.ethReserve)`, that string
denoting `v.ethReserve`; and `Number` is exact on every `uint8`/`uint40`
read. -/
theorem refresh_matches_reference (cfg : Config) (st : State) (now : Int) (stamp : Int)
    (v : Values)
    (hstale : st.metricsCache = none ∨ 60000 ≤ now - st.cacheTimestamp)
    (hty : v.wellTyped) :
    (∃ m, (getMetrics cfg st now (Ledger.healthy v) stamp).result = .ok m ∧
      (getMetrics cfg st now (Ledger.healthy v) stamp).state.metricsCache = some m ∧
      m.token = { name := v.name, symbol := v.symbol, decimals := v.decimals,
                  address := cfg.FCO_ADDRESS } ∧
      m.supply.total = v.totalSupply ∧
      m.epoch = { current := v.currentEpoch, duration := v.epochDuration,
                  lockDuration := v.lockDuration } ∧
      m.chain = { id := v.chainId, rpc := cfg.RPC_URL,
                  ethReserve := bigintToString v.ethReserve } ∧
      parseDecimal m.chain.ethReserve = v.ethReserve) ∧
    (Number v.decimals = v.decimals ∧ Number v.totalSupply = v.totalSupply ∧
      Number v.epochDuration = v.epochDuration ∧ Number v.lockDuration = v.lockDuration ∧
      Number v.currentEpoch = v.currentEpoch ∧ Number v.chainId = v.chainId) := by
  obtain ⟨h1, h2, h3, h4, h5, _, h7⟩ := hty
  have e1 := Number_of_lt v.decimals (by omega)
  have e2 := Number_of_lt v.totalSupply (by omega)
  have e3 := Number_of_lt v.epochDuration (by omega)
  have e4 := Number_of_lt v.lockDuration (by omega)
  have e5 := Number_of_lt v.currentEpoch (by omega)
  have e7 := Number_of_lt v.chainId (by omega)
  refine ⟨⟨assemble cfg v stamp, ?_, ?_, ?_, ?_, ?_, ?_, ?_⟩, e1, e2, e3, e4, e5, e7⟩
  · rw [getMetrics_of_stale_ok cfg st now _ stamp v hstale (promiseAll_healthy v)]
  · rw [getMetrics_of_stale_ok cfg st now _ stamp v hstale (promiseAll_healthy v)]
  · simp only [assemble, e1]
  · simp only [assemble, e2]
  · simp only [assemble, e3, e4, e5]
  · simp only [assemble, e7]
  · exact parseDecimal_bigintToString _

theorem refresh_matches_reference_witness :
    (State.initial.metricsCache = none ∧ exValues.wellTyped) ∧
    (getMetrics CONFIG State.initial 0 (Ledger.healthy exValues) 3).result
      = .ok (assemble CONFIG exValues 3) ∧
    (assemble CONFIG exValues 3).epoch
      = { current := 7, duration := 86400, lockDuration := 604800 } ∧
    Number exValues.totalSupply = 1000000 :=
  have hty : exValues.wellTyped := by unfold Values.wellTyped; decide
  have h := refresh_matches_reference CONFIG State.initial 0 3 exValues (Or.inl rfl) hty
  ⟨⟨rfl, hty⟩, rfl, rfl, h.2.2.1⟩

/-- C26: every snapshot a refresh assembles has
`supply.circulation = supply.total`, and so has every snapshot returned in a
sequence of calls from the initial state; on such a snapshot the routes
total-circulation, total-supply and total-mint answer with the same number. -/
theorem circulation_equals_total (cfg : Config) :
    (∀ (v : Values) (stamp : Int),
      (assemble cfg v stamp).supply.circulation = (assemble cfg v stamp).supply.total) ∧
    (∀ (calls : List Call) (o : Outcome) (m : MetricsSnapshot),
      o ∈ runCalls cfg State.initial calls → o.result = .ok m →
      m.supply.circulation = m.supply.total ∧
      ∃ n, MetricsRoute.respond cfg m .totalCirculation = .object [("circulation", .num n)] ∧
        MetricsRoute.respond cfg m .totalSupply = .object [("totalSupply", .num n)] ∧
        MetricsRoute.respond cfg m .totalMint = .object [("totalMint", .num n)]) := by
  refine ⟨fun v stamp => rfl, ?_⟩
  intro calls o m ho hm
  have h : m.supply.circulation = m.supply.total :=
    runCalls_returns (fun m => m.supply.circulation = m.supply.total) cfg calls State.initial
      (by intro m2 h2; cases h2) (fun c _ v _ => rfl) o ho m hm
  refine ⟨h, .ofNat m.supply.total, ?_, rfl, rfl⟩
  simp only [MetricsRoute.respond, h]

theorem circulation_equals_total_witness :
    (getMetrics CONFIG State.initial 0 exFirst.ledger 3
        ∈ runCalls CONFIG State.initial [exFirst] ∧
      (getMetrics CONFIG State.initial 0 exFirst.ledger 3).result
        = .ok (assemble CONFIG exValues 3)) ∧
    (assemble CONFIG exValues 3).supply.circulation = (assemble CONFIG exValues 3).supply.total :=
  ⟨⟨List.mem_cons_self _ _, rfl⟩,
   ((circulation_equals_total CONFIG).2 [exFirst]
     (getMetrics CONFIG State.initial 0 exFirst.ledger 3) (assemble CONFIG exValues 3)
     (List.mem_cons_self _ _) rfl).1⟩

/-- C27: in every snapshot `getPrices` returns `usdt_fco_dex_uniswap` is `0`,
and for every combination of outcomes of the two sources it returns such a
snapshot: no source populates the DEX price. -/
theorem dex_price_always_zero (pf : JsValue → Except JsError JsNumber)
    (lb cg : Settles Response) (stamp : Int) :
    (∀ p, (getPrices pf lb cg stamp).outcome = .fulfilled p →
      p.usdt_fco_dex_uniswap = .num .zero) ∧
    (attemptSettles lb = true → attemptSettles cg = true →
      ∃ p, (getPrices pf lb cg stamp).outcome = .fulfilled p ∧
        p.usdt_fco_dex_uniswap = .num .zero) := by
  refine ⟨?_, ?_⟩
  · intro p h
    obtain ⟨_, _, rfl⟩ := getPrices_fulfilled pf lb cg stamp p h
    rfl
  · intro hl hc
    exact ⟨_, (getPrices_run pf lb cg stamp).2.1 hl hc, rfl⟩

theorem dex_price_always_zero_witness :
    (attemptSettles exLBankUp = true ∧ attemptSettles exCoinGeckoUp = true) ∧
    ∃ p, (getPrices exParseFloat exLBankUp exCoinGeckoUp 7).outcome = .fulfilled p ∧
      p.usdt_fco_dex_uniswap = .num .zero :=
  ⟨⟨rfl, rfl⟩, (dex_price_always_zero exParseFloat exLBankUp exCoinGeckoUp 7).2 rfl rfl⟩

/-- After a call the cache is non-null exactly when it was before or the call
performed a successful refresh. -/
theorem getMetrics_isSome_iff (cfg : Config) (st : State) (now : Int) (ledger : Ledger)
    (stamp : Int) :
    (getMetrics cfg st now ledger stamp).state.metricsCache.isSome = true ↔
      (st.metricsCache.isSome = true ∨ (getMetrics cfg st now ledger stamp).refreshSucceeded) := by
  rcases getMetrics_cases cfg st now ledger stamp with
    ⟨cached, hc, _, hg⟩ | ⟨v, _, _, hg⟩ | ⟨e, _, _, hg⟩
  · rw [hg]
    simp [hc]
  · rw [hg]
    simp [Outcome.refreshSucceeded]
  · rw [hg]
    simp [Outcome.refreshSucceeded]

theorem finalState_isSome_iff (cfg : Config) :
    ∀ (calls : List Call) (st : State),
      (finalState cfg st calls).metricsCache.isSome = true ↔
        (st.metricsCache.isSome = true ∨ ∃ o ∈ runCalls cfg st calls, o.refreshSucceeded) := by
  intro calls
  induction calls with
  | nil => intro st; simp [finalState, runCalls]
  | cons c cs ih =>
    intro st
    simp only [finalState, runCalls, List.mem_cons, exists_eq_or_imp]
    rw [ih, getMetrics_isSome_iff, or_assoc]

/-- C28: over every sequence of sequential `getMetrics` calls from the initial
state the cache is non-null exactly when some call of the sequence performed
a successful refresh; a non-null cache stays non-null over every further
sequence of calls; a call either leaves both `metricsCache` and
`cacheTimestamp` as they were or performed a successful refresh, and a
successful refresh sets `metricsCache` to the snapshot it returns and
`cacheTimestamp` to the clock value read at the start of that call. -/
theorem cache_lifecycle (cfg : Config) :
    (∀ (calls : List Call),
      (finalState cfg State.initial calls).metricsCache.isSome = true ↔
        ∃ o ∈ runCalls cfg State.initial calls, o.refreshSucceeded) ∧
    (∀ (calls : List Call) (st : State), st.metricsCache.isSome = true →
      (finalState cfg st calls).metricsCache.isSome = true) ∧
    (∀ (st : State) (now : Int) (ledger : Ledger) (stamp : Int),
      (getMetrics cfg st now ledger stamp).state = st ∨
      ((getMetrics cfg st now ledger stamp).refreshSucceeded ∧
        ∃ m, (getMetrics cfg st now ledger stamp).result = .ok m ∧
          (getMetrics cfg st now ledger stamp).state
            = { metricsCache := some m, cacheTimestamp := now })) ∧
    (∀ (st : State) (now : Int) (ledger : Ledger) (stamp : Int) (m : MetricsSnapshot),
      (getMetrics cfg st now ledger stamp).refreshSucceeded →
      (getMetrics cfg st now ledger stamp).result = .ok m →
      (getMetrics cfg st now ledger stamp).state
        = { metricsCache := some m, cacheTimestamp := now }) := by
  refine ⟨?_, ?_, ?_, ?_⟩
  · intro calls
    rw [finalState_isSome_iff]
    simp [State.initial]
  · intro calls st h
    rw [finalState_isSome_iff]
    exact Or.inl h
  · intro st now ledger stamp
    rcases getMetrics_cases cfg st now ledger stamp with
      ⟨cached, _, _, hg⟩ | ⟨v, _, _, hg⟩ | ⟨e, _, _, hg⟩
    · rw [hg]; exact Or.inl rfl
    · rw [hg]; exact Or.inr ⟨⟨rfl, _, rfl⟩, _, rfl, rfl⟩
    · rw [hg]; exact Or.inl rfl
  · intro st now ledger stamp m hs hm
    rcases getMetrics_cases cfg st now ledger stamp with
      ⟨cached, _, _, hg⟩ | ⟨v, _, _, hg⟩ | ⟨e, _, _, hg⟩
    · rw [hg] at hs
      exact absurd hs.1 (by simp [allReads])
    · rw [hg] at hm ⊢
      cases hm
      rfl
    · rw [hg] at hm
      cases hm

theorem cache_lifecycle_witness :
    (exCached.metricsCache.isSome = true) ∧
    (finalState CONFIG exCached exLater).metricsCache.isSome = true ∧
    ((finalState CONFIG State.initial [exFirst]).metricsCache.isSome = true ↔
      ∃ o ∈ runCalls CONFIG State.initial [exFirst], o.refreshSucceeded) :=
  ⟨rfl, (cache_lifecycle CONFIG).2.1 exLater exCached rfl, (cache_lifecycle CONFIG).1 [exFirst]⟩

/-! ## The deployment test script -/

namespace DeploymentTest

/-- A test that counts as passed and is recorded keeps the counters in step. -/
theorem consistent_pass (r : EndpointResult) (t : TestRecord) (h : r.consistent) :
    (pushTest (passed r) t).consistent := by
  obtain ⟨h1, h2⟩ := h
  constructor
  · simp only [pushTest, passed]; omega
  · simp only [pushTest, passed, List.length_append, List.length_singleton]; omega

theorem consistent_fail (r : EndpointResult) (t : TestRecord) (h : r.consistent) :
    (pushTest (failed r) t).consistent := by
  obtain ⟨h1, h2⟩ := h
  constructor
  · simp only [pushTest, failed]; omega
  · simp only [pushTest, failed, List.length_append, List.length_singleton]; omega

theorem testConnectivity_consistent (a : Answers) (r : EndpointResult) (h : r.consistent) :
    (testConnectivity a r).result.consistent := by
  unfold testConnectivity
  simp only
  split
  · exact consistent_pass _ _ h
  · exact consistent_fail _ _ h

theorem testBalance_consistent (lib : Library) (a : Answers) (address : String)
    (r : EndpointResult) (h : r.consistent) :
    (testBalance lib a address r).result.consistent := by
  unfold testBalance
  simp only
  split
  · exact consistent_pass _ _ h
  · exact consistent_fail _ _ h

theorem testCompile_consistent (a : Answers) (r : EndpointResult) (h : r.consistent) :
    (testCompile a r).result.consistent := by
  unfold testCompile
  simp only
  split
  · exact consistent_pass _ _ h
  · exact consistent_fail _ _ h

theorem testDeployment_consistent (lib : Library) (a : Answers) (r : EndpointResult)
    (h : r.consistent) : (testDeployment lib a r).result.consistent := by
  unfold testDeployment
  simp only
  split
  · exact consistent_pass _ _ h
  · exact consistent_fail _ _ h

theorem readAddress_consistent (a : Answers) (r : EndpointResult) (h : r.consistent) :
    (readAddress a r).result.consistent := by
  unfold readAddress
  split <;> exact h

theorem testRead_consistent (name expected : String) (get : Except JsError Nat)
    (r : EndpointResult) (h : r.consistent) :
    (testRead name expected get r).result.consistent := by
  unfold testRead
  simp only
  split
  · split
    · exact consistent_pass _ _ h
    · exact consistent_fail _ _ h
  · exact consistent_fail _ _ h

theorem testWrite42_consistent (a : Answers) (r : EndpointResult) (h : r.consistent) :
    (testWrite42 a r).result.consistent := by
  unfold testWrite42
  simp only
  split
  · split
    · exact consistent_pass _ _ h
    · exact consistent_fail _ _ h
  · exact consistent_fail _ _ h

theorem testWrite999_consistent (a : Answers) (r : EndpointResult) (h : r.consistent) :
    (testWrite999 a r).result.consistent := by
  unfold testWrite999
  simp only
  split
  · split
    · exact consistent_pass _ _ h
    · exact consistent_fail _ _ h
  · exact consistent_fail _ _ h

theorem testIncrement_consistent (a : Answers) (r : EndpointResult) (h : r.consistent) :
    (testIncrement a r).result.consistent := by
  unfold testIncrement
  simp only
  split
  · split
    · exact consistent_pass _ _ h
    · exact consistent_fail _ _ h
  · exact consistent_fail _ _ h

theorem testEthCall_consistent (a : Answers) (r : EndpointResult) (h : r.consistent) :
    (testEthCall a r).result.consistent := by
  unfold testEthCall
  simp only
  split
  · split
    · exact consistent_pass _ _ h
    · exact consistent_fail _ _ h
  · exact consistent_fail _ _ h

theorem testEvents_consistent (a : Answers) (r : EndpointResult) (h : r.consistent) :
    (testEvents a r).result.consistent := by
  unfold testEvents
  simp only
  split
  · split
    · exact consistent_pass _ _ h
    · exact consistent_pass _ _ h
  · exact consistent_fail _ _ h

/-- Sequencing keeps the counters in step when both stretches do. -/
theorem andThen_consistent (s : Step) (rest : EndpointResult → Step)
    (hs : s.result.consistent) (hrest : ∀ r, r.consistent → (rest r).result.consistent) :
    (s.andThen rest).result.consistent := by
  cases s with
  | next r => exact hrest r hs
  | done r => exact hs
  | thrown r e => exact hs

theorem runTests_consistent (lib : Library) (a : Answers) (r : EndpointResult)
    (h : r.consistent) : (runTests lib a r).result.consistent := by
  unfold runTests
  split
  · exact h
  · refine andThen_consistent _ _ (testConnectivity_consistent a r h) fun r h => ?_
    refine andThen_consistent _ _ (testBalance_consistent lib a _ r h) fun r h => ?_
    refine andThen_consistent _ _ (testCompile_consistent a r h) fun r h => ?_
    refine andThen_consistent _ _ (testDeployment_consistent lib a r h) fun r h => ?_
    refine andThen_consistent _ _ (readAddress_consistent a r h) fun r h => ?_
    refine andThen_consistent _ _ (testRead_consistent _ _ _ r h) fun r h => ?_
    refine andThen_consistent _ _ (testWrite42_consistent a r h) fun r h => ?_
    refine andThen_consistent _ _ (testRead_consistent _ _ _ r h) fun r h => ?_
    refine andThen_consistent _ _ (testWrite999_consistent a r h) fun r h => ?_
    refine andThen_consistent _ _ (testRead_consistent _ _ _ r h) fun r h => ?_
    refine andThen_consistent _ _ (testIncrement_consistent a r h) fun r h => ?_
    refine andThen_consistent _ _ (testEthCall_consistent a r h) fun r h => ?_
    exact testEvents_consistent a r h

/-- C29: for every result `testEndpoint` returns, on every path (an early
return after a failed connectivity, compilation or deployment test, the full
run, or a fatal error caught by the outer handler),
`summary.total = summary.passed + summary.failed = tests.length`. -/
theorem testEndpoint_summary_consistent (lib : Library) (a : Answers) (endpoint : Endpoint) :
    (testEndpoint lib a endpoint).summary.total
      = (testEndpoint lib a endpoint).summary.passed
        + (testEndpoint lib a endpoint).summary.failed ∧
    (testEndpoint lib a endpoint).summary.passed + (testEndpoint lib a endpoint).summary.failed
      = (testEndpoint lib a endpoint).tests.length := by
  have h0 : EndpointResult.consistent
      { name := endpoint.name, url := endpoint.url, chainId := endpoint.chainId, tests := [],
        summary := { total := 0, passed := 0, failed := 0 } } := ⟨rfl, rfl⟩
  have h := runTests_consistent lib a _ h0
  have key : (testEndpoint lib a endpoint).consistent := by
    unfold testEndpoint
    simp only
    split <;> rename_i heq <;> rw [heq] at h <;> exact h
  obtain ⟨h1, h2⟩ := key
  exact ⟨h1, by omega⟩

/-- The three kinds of path on concrete runs: the full run records twelve
tests, a rejected deployment returns after four, and a failure at line 180
is noted as fatal after four. -/
theorem testEndpoint_paths :
    (testEndpoint exLibrary exAllGood exEndpoint).summary
      = { total := 12, passed := 12, failed := 0 } ∧
    (testEndpoint exLibrary exAllGood exEndpoint).tests.length = 12 ∧
    (testEndpoint exLibrary exNoDeploy exEndpoint).summary
      = { total := 4, passed := 3, failed := 1 } ∧
    (testEndpoint exLibrary exNoDeploy exEndpoint).tests.length = 4 ∧
    (testEndpoint exLibrary exFatal exEndpoint).summary
      = { total := 4, passed := 4, failed := 0 } ∧
    (testEndpoint exLibrary exFatal exEndpoint).fatalError = some "could not detect network" :=
  ⟨rfl, rfl, rfl, rfl, rfl, rfl⟩

end DeploymentTest

end FcoMetrics
